import Mathlib

/-!
# SamplingCore: heuristic queues, visit ledger and retrain throttle

A shallow embedding of `sampling_core/src/sampling_core.cpp`, and of the measurement
callback of `sampling_core/node/centralized_sampling_node.cpp`.

Conventions of the embedding.

* `double` values are read as exact rationals: no rounding, no NaN, no infinities.  The
  heuristic queues only ever compare scores, and comparison of finite doubles agrees with
  comparison of their exact values.
* Reads of Eigen coefficients and of `std::vector` elements are checked: an access outside
  the container is undefined behaviour in C++ and is a `Fault` here.
* Collaborators whose code is not part of the sources (the Gaussian-process mixture, the
  Voronoi partitioner, `utils::L2Distance`, `std::sqrt`) are fields of `Collaborators`;
  the GPS services of the two robots are an input `GPS` of every operation that may call
  them.
* `calls_` is a ghost field recording which update routines ran; the C++ object has no such
  member and no operation reads it.
-/

set_option linter.dupNamespace false

namespace sampling

/-- The C++ type `double`, read as exact rational arithmetic. -/
abbrev double := ℚ

/-- A row of the `N x 2` matrix `location_`: (latitude, longitude). -/
abbrev Row := double × double

/-- Undefined behaviour reached by the C++ code. -/
inductive Fault where
  /-- Coefficient of an Eigen vector or matrix read outside its size. -/
  | eigenIndex
  /-- Element `heuristic_pq_v_[i]` used with `i` not below `heuristic_pq_v_.size()`. -/
  | queueIndex
  /-- Remainder `%` taken with a zero divisor. -/
  | moduloByZero
  /-- The call `top()` on an empty priority queue. -/
  | emptyTop
  deriving DecidableEq, Repr

/-- Values of `heuristic_mode_`. -/
inductive HeuristicMode where
  | VARIANCE
  | UCB
  | DISTANCE_UCB
  deriving DecidableEq, Repr

/-- Routines whose invocation is recorded in the ghost field `calls_`. -/
inductive Call where
  | UpdateGPModel
  | UpdateVisualization
  | UpdateHeuristic
  deriving DecidableEq, Repr

/-! ## `std::priority_queue<std::pair<double, int>, ..., std::less<...>>` -/

/-- The `operator<` of `std::pair<double, int>`: lexicographic, score first.  The `int` is
a grid index, never negative, and is kept as a natural number. -/
def pairLess (a b : double × Nat) : Bool :=
  decide (a.1 < b.1) || (!decide (b.1 < a.1) && decide (a.2 < b.2))

/-- A max-priority queue under `pairLess`, kept as the list of its entries from the greatest
to the least: `top()` is the head, `pop()` drops it. -/
abbrev PriorityQueue := List (double × Nat)

namespace PriorityQueue

/-- The call `push(x)`: `x` goes in front of the first entry that is less than `x`. -/
def push (x : double × Nat) : PriorityQueue → PriorityQueue
  | [] => [x]
  | y :: q => if pairLess y x then x :: y :: q else y :: push x q

/-- The call `empty()`. -/
def empty (q : PriorityQueue) : Bool := q.isEmpty

/-- The call `top()`, on a queue the caller has checked to be non-empty. -/
def top (q : PriorityQueue) : Option (double × Nat) := q.head?

/-- The call `pop()`. -/
def pop (q : PriorityQueue) : PriorityQueue := q.tail

end PriorityQueue

/-! ## Messages and collaborators -/

/-- The message `sampling_msgs::measurement`. -/
structure measurement where
  valid : Bool
  robot_id : String
  latitude : double
  longitude : double
  measurement : double

/-- The request of `sampling_msgs::RequestGoal`. -/
structure Request where
  robot_id : String

/-- The response of `sampling_msgs::RequestGoal`. -/
structure Response where
  latitude : double
  longitude : double
  deriving DecidableEq, Repr

/-- Outcome of the two `RequestLocation` service calls: `none` when `call` returns false,
otherwise the (latitude, longitude) of the response. -/
structure GPS where
  Jackal : Option Row
  Pelican : Option Row

/-- Collaborators of `SamplingCore` that are not part of the sources.  `G` is the state of
`gmm::Gaussian_Mixture_Model`. -/
structure Collaborators (G : Type) where
  /-- The function `std::sqrt`. -/
  sqrt : double → double
  /-- The function `utils::L2Distance`. -/
  L2Distance : Row → Row → double
  /-- The method `AddTrainingData(location, feature)` of the mixture. -/
  AddTrainingData : G → Row → double → G
  /-- The method `ExpectationAndMaximization(max_iteration, convergence_threshold)`. -/
  ExpectationAndMaximization : G → G
  /-- The method `GaussianProcessMixturePredict(location, mean, var)`: the mixture after
  the call, the mean vector and the variance vector. -/
  GaussianProcessMixturePredict : G → List Row → G × List double × List double
  /-- The method `UpdateVoronoiMap(robot_locations, scale, labels, distance)` of the
  partitioner built from `location_`: grid, anchors and scale give the label sets. -/
  UpdateVoronoiMap : List Row → List Row → double → List (List Nat)

/-! ## The state of `SamplingCore` -/

/-- The members of `SamplingCore` the modelled operations read or write.

Modelled from the spec: the declarations of `sample_count_` and `heuristic_pq_v_` live in
`sampling_core.h`, which is not among the sources.  `sample_count_` is the visit ledger, a
map from a location to its count; `operator[]` value-initialises a missing key, so it reads
as a total function that is `0` on keys never written.  `heuristic_pq_v_` is the sequence of
per-anchor queues, one per robot, indexed from `0`.  `sample_size_` and
`model_update_rate_` are declared there as well and are read as natural numbers, the
counter without wrap-around. -/
structure SamplingCore (G : Type) where
  location_ : List Row
  map_scale_ : double
  model_update_rate_ : Nat
  heuristic_mode_ : HeuristicMode
  Jackal_id_ : String
  Pelican_id_ : String
  distance_scale_factor_ : double
  variance_coeff_ : double
  update_flag_ : Bool
  sample_size_ : Nat
  sample_count_ : Row → Nat
  gp_node_ : G
  mean_prediction_ : List double
  var_prediction_ : List double
  heuristic_pq_ : PriorityQueue
  heuristic_pq_v_ : List PriorityQueue
  /-- Ghost: the update routines invoked so far, oldest first. -/
  calls_ : List Call

variable {G : Type}

/-- Coefficient `v(i)` of an `Eigen::VectorXd`. -/
def coeff (v : List double) (i : Nat) : Except Fault double :=
  match v[i]? with
  | some x => .ok x
  | none => .error .eigenIndex

/-- Row `m.row(i)` of an `N x 2` matrix. -/
def row (m : List Row) (i : Nat) : Except Fault Row :=
  match m[i]? with
  | some x => .ok x
  | none => .error .eigenIndex

/-- The statement `heuristic_pq_v_[i].push(x)`. -/
def pushAt (v : List PriorityQueue) (i : Nat) (x : double × Nat) :
    Except Fault (List PriorityQueue) :=
  match v[i]? with
  | some q => .ok (v.set i (q.push x))
  | none => .error .queueIndex

/-- The expression `mean_prediction_(index) + variance_coeff_ /
std::sqrt(sample_count_[location_.row(index)]) * var_prediction_(index)` of
`UpdateHeuristic`. -/
def confidence_bound (E : Collaborators G) (s : SamplingCore G) (index : Nat) :
    Except Fault double := do
  let m ← coeff s.mean_prediction_ index
  let loc ← row s.location_ index
  let v ← coeff s.var_prediction_ index
  pure (m + s.variance_coeff_ / E.sqrt (s.sample_count_ loc) * v)

/-- The innermost loop of the `DISTANCE_UCB` case of `UpdateHeuristic`: the score `q` of the
point at `point_location`, summed over the label set `labels[i]` it belongs to, starting
from `0.0`. -/
def distanceScore (E : Collaborators G) (s : SamplingCore G) (label : List Nat)
    (point_location : Row) : Except Fault double :=
  label.foldlM (fun q index => do
    let cb ← confidence_bound E s index
    let loc ← row s.location_ index
    pure (q + E.L2Distance point_location loc * cb)) (0 : double)

/-- The loop over `j` of the `DISTANCE_UCB` case of `UpdateHeuristic` for one label set
`labels[i]`: every member `labels[i][j]` gets its score `q` and is pushed on
`heuristic_pq_v_[i]`. -/
def fillAnchorQueue (E : Collaborators G) (s : SamplingCore G) (i : Nat) (label : List Nat)
    (v : List PriorityQueue) : Except Fault (List PriorityQueue) :=
  label.foldlM (fun v lij => do
    let point_location ← row s.location_ lij
    let q ← distanceScore E s label point_location
    pushAt v i (q, lij)) v

/-- The method `SamplingCore::UpdateHeuristic`. -/
def UpdateHeuristic (E : Collaborators G) (gps : GPS) (s0 : SamplingCore G) :
    Except Fault (SamplingCore G) :=
  let s := { s0 with calls_ := s0.calls_ ++ [Call.UpdateHeuristic] }
  match s.heuristic_mode_ with
  | .VARIANCE => do
    let pq ← (List.range s.location_.length).foldlM (fun pq i => do
      let v ← coeff s.var_prediction_ i
      pure (PriorityQueue.push (v, i) pq)) ([] : PriorityQueue)
    pure { s with heuristic_pq_ := pq }
  | .UCB => do
    let pq ← (List.range s.location_.length).foldlM (fun pq i => do
      let cb ← confidence_bound E s i
      pure (PriorityQueue.push (cb, i) pq)) ([] : PriorityQueue)
    pure { s with heuristic_pq_ := pq }
  | .DISTANCE_UCB =>
    -- heuristic_pq_v_.clear()
    let s := { s with heuristic_pq_v_ := [] }
    match gps.Jackal with
    | none => pure s
    | some jackal =>
      match gps.Pelican with
      | none => pure s
      | some pelican => do
        let robot_locations := [jackal, pelican]
        let labels := E.UpdateVoronoiMap s.location_ robot_locations s.distance_scale_factor_
        let v ← labels.enum.foldlM (fun v il => fillAnchorQueue E s il.1 il.2 v)
          s.heuristic_pq_v_
        pure { s with heuristic_pq_v_ := v }

/-- The method `SamplingCore::UpdateGPModel`. -/
def UpdateGPModel (E : Collaborators G) (s : SamplingCore G) : SamplingCore G :=
  let g := E.ExpectationAndMaximization s.gp_node_
  let p := E.GaussianProcessMixturePredict g s.location_
  { s with gp_node_ := p.1, mean_prediction_ := p.2.1, var_prediction_ := p.2.2,
           calls_ := s.calls_ ++ [Call.UpdateGPModel] }

/-- The method `SamplingCore::UpdateVisualization`; the maps it draws are not modelled. -/
def UpdateVisualization (s : SamplingCore G) : SamplingCore G :=
  { s with calls_ := s.calls_ ++ [Call.UpdateVisualization] }

/-- The method `SamplingCore::Update`. -/
def Update (E : Collaborators G) (gps : GPS) (s : SamplingCore G) :
    Except Fault (SamplingCore G) :=
  if s.update_flag_ then
    let s := { s with update_flag_ := false }
    let s := UpdateGPModel E s
    let s := UpdateVisualization s
    UpdateHeuristic E gps s
  else
    pure s

/-! ## Serving a request -/

/-- The result of `std::string::compare`, up to its sign. -/
def stringCompare (a b : String) : Int :=
  if a = b then 0 else if a < b then -1 else 1

/-- The C++ operator `!` on an `int`, with the `bool` result promoted back to `int`. -/
def lnot (x : Int) : Int := if x = 0 then 1 else 0

/-- Element `heuristic_pq_v_[i]`. -/
def queueAt (v : List PriorityQueue) (i : Nat) : Except Fault PriorityQueue :=
  match v[i]? with
  | some q => .ok q
  | none => .error .queueIndex

/-- What `AssignInterestPoint` hands back: the returned `bool`, the response object, the
state afterwards, and (ghost) the grid index `interest_point_pair.second` it dispensed. -/
structure Assigned (G : Type) where
  ret : Bool
  res : Response
  index : Option Nat
  state : SamplingCore G

/-- The four statements that serve a request from a queue `q`: read `q.top()`, write the
coordinates of its grid index divided by `map_scale_` into the response, `q.pop()`.  Gives
the response, the grid index and the queue after the pop. -/
def dispense (s : SamplingCore G) (q : PriorityQueue) :
    Except Fault (Response × Nat × PriorityQueue) :=
  match q.top with
  | none => .error .emptyTop
  | some interest_point_pair => do
    let loc ← row s.location_ interest_point_pair.2
    pure ({ latitude := loc.1 / s.map_scale_, longitude := loc.2 / s.map_scale_ },
      interest_point_pair.2, q.pop)

/-- The two statements run when a queue is found empty: predict with the current mixture,
then `UpdateHeuristic`. -/
def forcedRebuild (E : Collaborators G) (gps : GPS) (s : SamplingCore G) :
    Except Fault (SamplingCore G) :=
  let p := E.GaussianProcessMixturePredict s.gp_node_ s.location_
  UpdateHeuristic E gps
    { s with gp_node_ := p.1, mean_prediction_ := p.2.1, var_prediction_ := p.2.2 }

/-- The four statements that serve a request from `heuristic_pq_`, ending in `return true`. -/
def serveGlobal (s : SamplingCore G) : Except Fault (Assigned G) := do
  let (r, i, q) ← dispense s s.heuristic_pq_
  pure { ret := true, res := r, index := some i, state := { s with heuristic_pq_ := q } }

/-- The `VARIANCE` case of `AssignInterestPoint`; the `UCB` case is the same text. -/
def assignGlobal (E : Collaborators G) (gps : GPS) (s : SamplingCore G) (res : Response) :
    Except Fault (Assigned G) :=
  if s.heuristic_pq_.empty then do
    let s ← forcedRebuild E gps s
    if s.heuristic_pq_.empty then
      pure { ret := false, res := res, index := none, state := s }
    else
      serveGlobal s
  else
    serveGlobal s

/-- One robot branch of the `DISTANCE_UCB` case: serve from `heuristic_pq_v_[k]` when that
queue is non-empty, return false otherwise. -/
def assignFromQueue (s : SamplingCore G) (k : Nat) (res : Response) :
    Except Fault (Assigned G) := do
  let qk ← queueAt s.heuristic_pq_v_ k
  if !qk.empty then
    let (r, i, q) ← dispense s qk
    pure { ret := true, res := r, index := some i,
           state := { s with heuristic_pq_v_ := s.heuristic_pq_v_.set k q } }
  else
    pure { ret := false, res := res, index := none, state := s }

/-- The robot branches of the `DISTANCE_UCB` case, entered once `heuristic_pq_v_` is known
to hold a queue.  The condition `!req.robot_id.compare(Jackal_id_) == 0` parses as
`(!req.robot_id.compare(Jackal_id_)) == 0`. -/
def assignByRobot (s : SamplingCore G) (req : Request) (res : Response) :
    Except Fault (Assigned G) :=
  if lnot (stringCompare req.robot_id s.Jackal_id_) = 0 then
    assignFromQueue s 0 res
  else if lnot (stringCompare req.robot_id s.Pelican_id_) = 0 then
    assignFromQueue s 1 res
  else
    pure { ret := false, res := res, index := none, state := s }

/-- The method `SamplingCore::AssignInterestPoint`. -/
def AssignInterestPoint (E : Collaborators G) (gps : GPS) (s : SamplingCore G) (req : Request)
    (res : Response) : Except Fault (Assigned G) :=
  match s.heuristic_mode_ with
  | .VARIANCE => assignGlobal E gps s res
  | .UCB => assignGlobal E gps s res
  | .DISTANCE_UCB =>
    if s.heuristic_pq_v_.isEmpty then do
      let s ← forcedRebuild E gps s
      if s.heuristic_pq_v_.isEmpty then
        pure { ret := false, res := res, index := none, state := s }
      else
        assignByRobot s req res
    else
      assignByRobot s req res

/-! ## Receiving a measurement -/

/-- The method `SamplingCore::CollectSampleCallback`.

Modelled from the spec: `utils::MsgToMatrix` is not among the sources; it is read as
filling `new_location` with (latitude, longitude) of the message and `new_feature` with its
measurement. -/
def CollectSampleCallback (E : Collaborators G) (s : SamplingCore G) (msg : measurement) :
    Except Fault (SamplingCore G) :=
  if msg.valid then
    let s := { s with sample_size_ := s.sample_size_ + 1 }
    if s.model_update_rate_ = 0 then .error .moduloByZero
    else
      let s := if s.sample_size_ % s.model_update_rate_ = 0
        then { s with update_flag_ := true } else s
      let new_location : Row := (msg.latitude * s.map_scale_, msg.longitude * s.map_scale_)
      let count := s.sample_count_ new_location + 1
      let s := { s with sample_count_ := Function.update s.sample_count_ new_location count }
      pure { s with gp_node_ := E.AddTrainingData s.gp_node_ new_location msg.measurement }
  else
    pure s

/-! ## Loading the parameters -/

/-- The values `ParseFromRosParam` fetches for the members modelled here; `none` is a
parameter the server does not have.  The remaining parameters (ground truth and initial
samples, EM and GP settings, visualization maps) fill members outside the model and are
taken to be present. -/
structure RosParam where
  location_data : Option (List Row)
  map_scale : Option double
  heuristic_mode : Option Int
  Jackal_id : Option String
  Pelican_id : Option String
  scale_factor : Option double
  variable_coeff : Option double

/-- The loop `sample_count_[location_.row(i)] = 1.0` over the rows of `location_`. -/
def initSampleCount (location : List Row) (count : Row → Nat) : Row → Nat :=
  location.foldl (fun m k => Function.update m k 1) count

/-- The method `SamplingCore::ParseFromRosParam`; `none` is the return value false. -/
def ParseFromRosParam (p : RosParam) (s : SamplingCore G) : Option (SamplingCore G) := do
  let location ← p.location_data
  let s := { s with location_ := location,
                    sample_count_ := initSampleCount location s.sample_count_ }
  let map_scale ← p.map_scale
  let s := { s with map_scale_ := map_scale }
  let heuristic_mode_int ← p.heuristic_mode
  let mode := match heuristic_mode_int with
    | 0 => HeuristicMode.VARIANCE
    | 1 => HeuristicMode.UCB
    | 2 => HeuristicMode.DISTANCE_UCB
    | _ => HeuristicMode.VARIANCE
  let s := { s with heuristic_mode_ := mode }
  let jackal ← p.Jackal_id
  let pelican ← p.Pelican_id
  let scale_factor ← p.scale_factor
  let variable_coeff ← p.variable_coeff
  pure { s with Jackal_id_ := jackal, Pelican_id_ := pelican,
                distance_scale_factor_ := scale_factor, variance_coeff_ := variable_coeff }

/-! ## Drivers -/

/-- Successive `AssignInterestPoint` requests with no other operation in between, each with
its own GPS outcome, request and response object; the results in order. -/
def serveRequests (E : Collaborators G) :
    List (GPS × Request × Response) → SamplingCore G → Except Fault (List (Assigned G))
  | [], _ => pure []
  | c :: rest, s => do
    let a ← AssignInterestPoint E c.1 s c.2.1 c.2.2
    let as ← serveRequests E rest a.state
    pure (a :: as)

/-- The queue obtained by pushing `(score i, i)` for the indices `i` of `l`, in order. -/
def pushAll (score : Nat → double) (l : List Nat) (q : PriorityQueue) : PriorityQueue :=
  l.foldl (fun pq i => PriorityQueue.push (score i, i) pq) q

/-! ## Notions used in the statements -/

/-- A queue is well formed when no entry is less than a later one. -/
def Descending (q : PriorityQueue) : Prop :=
  q.Pairwise (fun a b => pairLess a b = false)

/-- The variance the prediction field holds for grid index `i`. -/
def varianceAt (s : SamplingCore G) (i : Nat) : double := s.var_prediction_.getD i 0

/-- The upper confidence bound of grid index `i`, with every read in range. -/
def ucbAt (E : Collaborators G) (s : SamplingCore G) (i : Nat) : double :=
  s.mean_prediction_.getD i 0 +
    s.variance_coeff_ / E.sqrt (s.sample_count_ (s.location_.getD i (0, 0))) *
      s.var_prediction_.getD i 0

/-- The response written for grid index `i`. -/
def responseAt (s : SamplingCore G) (i : Nat) : Response :=
  { latitude := (s.location_.getD i (0, 0)).1 / s.map_scale_,
    longitude := (s.location_.getD i (0, 0)).2 / s.map_scale_ }

/-! ## Concrete inputs -/

/-- A square root on the rationals for running the model on explicit inputs: the integer
square roots of numerator and denominator, exact on squares of rationals. -/
def rationalSqrt (x : double) : double := (Nat.sqrt x.num.toNat : ℚ) / (Nat.sqrt x.den : ℚ)

/-- Collaborators for running the model on explicit inputs.  The mixture is the list of its
training samples and predicts mean `0` and variance `1` at every location; the partitioner
gives every grid index to the first anchor. -/
def demo : Collaborators (List (Row × double)) where
  sqrt := rationalSqrt
  L2Distance := fun a b => rationalSqrt ((a.1 - b.1) ^ 2 + (a.2 - b.2) ^ 2)
  AddTrainingData := fun g location feature => g ++ [(location, feature)]
  ExpectationAndMaximization := fun g => g
  GaussianProcessMixturePredict := fun g location =>
    (g, location.map (fun _ => 0), location.map (fun _ => 1))
  UpdateVoronoiMap := fun grid _ _ => [List.range grid.length, []]

/-- A coordinator over three grid locations on a line, map scale `2`, retrain rate `5`,
coefficient `2`, every visit count `1`, mean `[0, 0, 0]`, nothing queued, no sample yet. -/
def core3 (mode : HeuristicMode) (variance : List double) :
    SamplingCore (List (Row × double)) where
  location_ := [(0, 0), (1, 0), (2, 0)]
  map_scale_ := 2
  model_update_rate_ := 5
  heuristic_mode_ := mode
  Jackal_id_ := "jackal"
  Pelican_id_ := "pelican"
  distance_scale_factor_ := 1
  variance_coeff_ := 2
  update_flag_ := false
  sample_size_ := 0
  sample_count_ := initSampleCount [(0, 0), (1, 0), (2, 0)] (fun _ => 0)
  gp_node_ := []
  mean_prediction_ := [0, 0, 0]
  var_prediction_ := variance
  heuristic_pq_ := []
  heuristic_pq_v_ := []
  calls_ := []

/-- A request from `robot_id` with a failing GPS and a zeroed response object. -/
def ask (robot_id : String) : GPS × Request × Response :=
  (⟨none, none⟩, ⟨robot_id⟩, ⟨0, 0⟩)

/-- The grid indices a run of requests dispensed, in order. -/
def dispensed (r : Except Fault (List (Assigned G))) : Option (List (Option Nat)) :=
  match r with
  | .ok as => some (as.map (fun a => a.index))
  | .error _ => none

/-- The three-location coordinator in DISTANCE_UCB mode with two per-robot queues already
built: queue `0` holds grid index `0`, queue `1` holds grid index `1`. -/
def core3Queued : SamplingCore (List (Row × double)) :=
  { core3 .DISTANCE_UCB [1, 1, 1] with heuristic_pq_v_ := [[(1, 0)], [(2, 1)]] }

/-- What a request is observed to do: the returned `bool`, the grid index dispensed and the
per-robot queues left behind. -/
def observed (r : Except Fault (Assigned G)) :
    Option (Bool × Option Nat × List PriorityQueue) :=
  match r with
  | .ok a => some (a.ret, a.index, a.state.heuristic_pq_v_)
  | .error _ => none

/-- The calls a coordinator receives once its parameters are loaded. -/
inductive Op where
  /-- A measurement arrives: `CollectSampleCallback(msg)`. -/
  | collect (msg : measurement)
  /-- A robot asks for a target: `AssignInterestPoint(req, res)`. -/
  | assign (gps : GPS) (req : Request) (res : Response)
  /-- The main loop calls `Update()`. -/
  | update (gps : GPS)

/-- One call, keeping only the state it leaves. -/
def step (E : Collaborators G) (s : SamplingCore G) : Op → Except Fault (SamplingCore G)
  | .collect msg => CollectSampleCallback E s msg
  | .assign gps req res => do
    let a ← AssignInterestPoint E gps s req res
    pure a.state
  | .update gps => Update E gps s

/-- A sequence of calls, one after the other. -/
def run (E : Collaborators G) : List Op → SamplingCore G → Except Fault (SamplingCore G)
  | [], s => pure s
  | op :: ops, s => do
    let s ← step E s op
    run E ops s

/-- The members that no request and no rebuild writes: grid, configuration, sample counter,
update flag and visit ledger are in `s'` what they are in `s`. -/
def Untouched (s s' : SamplingCore G) : Prop :=
  s'.location_ = s.location_ ∧ s'.map_scale_ = s.map_scale_ ∧
  s'.model_update_rate_ = s.model_update_rate_ ∧ s'.heuristic_mode_ = s.heuristic_mode_ ∧
  s'.Jackal_id_ = s.Jackal_id_ ∧ s'.Pelican_id_ = s.Pelican_id_ ∧
  s'.distance_scale_factor_ = s.distance_scale_factor_ ∧
  s'.variance_coeff_ = s.variance_coeff_ ∧ s'.update_flag_ = s.update_flag_ ∧
  s'.sample_size_ = s.sample_size_ ∧ s'.sample_count_ = s.sample_count_

/-- Parameters of a three-location grid in UCB mode. -/
def params3 : RosParam where
  location_data := some [(0, 0), (1, 0), (2, 0)]
  map_scale := some 2
  heuristic_mode := some 1
  Jackal_id := some "jackal"
  Pelican_id := some "pelican"
  scale_factor := some 1
  variable_coeff := some 2

/-- A valid measurement of value `7` reported by the Jackal at the given coordinates. -/
def sampleAt (latitude longitude : double) : measurement :=
  { valid := true, robot_id := "jackal", latitude := latitude, longitude := longitude,
    measurement := 7 }

/-- The ledger key of a measurement: its coordinates multiplied by `map_scale_`. -/
def ledgerKey (s : SamplingCore G) (msg : measurement) : Row :=
  (msg.latitude * s.map_scale_, msg.longitude * s.map_scale_)

/-- Squared Euclidean distance between two locations. -/
def sqDist (a b : Row) : double := (a.1 - b.1) ^ 2 + (a.2 - b.2) ^ 2

/-- The calls of a main loop in which `Update` runs after every measurement: each
measurement comes with the GPS outcome its `Update` would see. -/
def sampleRounds : List (measurement × GPS) → List Op
  | [] => []
  | c :: cs => .collect c.1 :: .update c.2 :: sampleRounds cs

/-- The number of valid measurements among `cs`. -/
def validCount (cs : List (measurement × GPS)) : Nat :=
  (cs.filter (fun c => c.1.valid)).length

/-- What one pass through the body of `Update` records: a retrain, a redraw, a rebuild. -/
def updateCalls : List Call :=
  [Call.UpdateGPModel, Call.UpdateVisualization, Call.UpdateHeuristic]

/-- The mixture hands back one mean and one variance for every location it is asked about. -/
def PredictsEveryLocation (E : Collaborators G) : Prop :=
  ∀ g location,
    location.length ≤ (E.GaussianProcessMixturePredict g location).2.1.length ∧
    location.length ≤ (E.GaussianProcessMixturePredict g location).2.2.length

/-- Four valid reports, each followed by an `Update` whose GPS calls would fail. -/
def fourRounds : List (measurement × GPS) :=
  [(sampleAt 0 0, ⟨none, none⟩), (sampleAt (1/2) 0, ⟨none, none⟩),
   (sampleAt 1 0, ⟨none, none⟩), (sampleAt (1/2) 0, ⟨none, none⟩)]

/-- Every read that scoring grid index `i` makes is inside its container. -/
def Scorable (s : SamplingCore G) (i : Nat) : Prop :=
  i < s.location_.length ∧ i < s.mean_prediction_.length ∧ i < s.var_prediction_.length

/-- The three-location coordinator with its grid and its prediction field removed. -/
def core0 (mode : HeuristicMode) : SamplingCore (List (Row × double)) :=
  { core3 mode [] with location_ := [], mean_prediction_ := [] }

/-- What a request that dispensed a grid index handed back, in terms of the state `s` it was
served from: it returned true, and its response holds the coordinates of that grid index
divided by `map_scale_`. -/
def Served (s : SamplingCore G) (a : Assigned G) : Prop :=
  ∀ i, a.index = some i → a.ret = true ∧ ∃ loc, s.location_[i]? = some loc ∧
    a.res = { latitude := loc.1 / s.map_scale_, longitude := loc.2 / s.map_scale_ }

/-- The three-location coordinator in VARIANCE mode right after a rebuild over the variances
`[0.1, 0.9, 0.5]`. -/
def core3Ready : SamplingCore (List (Row × double)) :=
  { core3 .VARIANCE [1/10, 9/10, 1/2] with
    heuristic_pq_ := [(9/10, 1), (1/2, 2), (1/10, 0)] }

/-! ## The node `CentralizedSamplingNode` (`node/centralized_sampling_node.cpp`) -/

/-- The number of values of `size_t`. -/
def sizeRange : Nat := 2 ^ 64

/-- The members of `CentralizedSamplingNode` that `collect_sample_callback` reads or
writes, and `model_update_rate_`, which `load_parameter` fills.  The matrices are kept as the
lists of their rows: `sample_temperature_` has one column, `sample_location_` two. -/
structure CentralizedSamplingNode where
  model_update_rate_ : Int
  update_flag_ : Bool
  sample_location_ : List Row
  sample_temperature_ : List double
  sample_size_ : Nat

/-- The node as its constructor leaves it: flag cleared, matrices empty.  The constructor
does not assign `sample_size_`; `size` is whatever the member holds. -/
def constructed (rate : Int) (size : Nat) : CentralizedSamplingNode :=
  { model_update_rate_ := rate, update_flag_ := false, sample_location_ := [],
    sample_temperature_ := [], sample_size_ := size }

/-- The call `m.conservativeResize(rows, cols)` on a matrix kept as its rows: the first
`rows` rows are kept, rows that are new hold `fresh`, standing for storage Eigen leaves
uninitialised. -/
def conservativeResize {α : Type} (rows : Nat) (m : List α) (fresh : α) : List α :=
  (m ++ List.replicate (rows - m.length) fresh).take rows

/-- The assignment `m(i, ..) = ..` to row `i` of a matrix kept as its rows. -/
def assignRow {α : Type} (m : List α) (i : Nat) (f : α → α) : Except Fault (List α) :=
  match m[i]? with
  | some r => .ok (m.set i (f r))
  | none => .error .eigenIndex

/-- The method `CentralizedSamplingNode::collect_sample_callback`.  In
`sample_size_ % update_flag_` the `bool` is converted to `size_t`: `1` for true, `0` for
false. -/
def collect_sample_callback (fresh : double) (n : CentralizedSamplingNode)
    (msg : measurement) : Except Fault CentralizedSamplingNode :=
  if msg.valid then
    let n := { n with sample_size_ := (n.sample_size_ + 1) % sizeRange }
    let divisor : Nat := if n.update_flag_ then 1 else 0
    if divisor = 0 then .error .moduloByZero
    else do
      let n := if n.sample_size_ % divisor = 0 then { n with update_flag_ := true } else n
      let n := { n with sample_temperature_ :=
                          conservativeResize n.sample_size_ n.sample_temperature_ fresh }
      let n := { n with sample_location_ :=
                          conservativeResize n.sample_size_ n.sample_location_ (fresh, fresh) }
      let temperature ← assignRow n.sample_temperature_ n.sample_size_
        (fun _ => msg.measurement)
      let n := { n with sample_temperature_ := temperature }
      let location ← assignRow n.sample_location_ n.sample_size_
        (fun r => (msg.latitude, r.2))
      let n := { n with sample_location_ := location }
      let location ← assignRow n.sample_location_ n.sample_size_
        (fun r => (r.1, msg.longitude))
      pure { n with sample_location_ := location }
  else
    pure n

/-- Ten valid reports at the same place, with no `Update` in between. -/
def tenSamples : List measurement := List.replicate 10 (sampleAt 1 0)

/-! ## Facts about the priority queue -/

theorem pairLess_iff (a b : double × Nat) :
    pairLess a b = true ↔ a.1 < b.1 ∨ (a.1 = b.1 ∧ a.2 < b.2) := by
  unfold pairLess
  simp only [Bool.or_eq_true, Bool.and_eq_true, Bool.not_eq_true', decide_eq_true_eq,
    decide_eq_false_iff_not, not_lt]
  constructor
  · rintro (h | ⟨h1, h2⟩)
    · exact Or.inl h
    · rcases lt_or_eq_of_le h1 with h | h
      · exact Or.inl h
      · exact Or.inr ⟨h, h2⟩
  · rintro (h | ⟨h1, h2⟩)
    · exact Or.inl h
    · exact Or.inr ⟨le_of_eq h1, h2⟩

theorem pairLess_iff_lex (a b : double × Nat) :
    pairLess a b = true ↔ toLex a < toLex b := by
  rw [pairLess_iff, Prod.Lex.lt_iff]

theorem pairLess_false_iff (a b : double × Nat) :
    pairLess a b = false ↔ toLex b ≤ toLex a := by
  rw [← not_lt, ← pairLess_iff_lex, Bool.not_eq_true]

theorem push_perm (x : double × Nat) (q : PriorityQueue) :
    (PriorityQueue.push x q).Perm (x :: q) := by
  induction q with
  | nil => simp [PriorityQueue.push]
  | cons y q ih =>
    unfold PriorityQueue.push
    split
    · exact List.Perm.refl _
    · exact (List.Perm.cons y ih).trans (List.Perm.swap x y q)

theorem push_descending (x : double × Nat) (q : PriorityQueue) (h : Descending q) :
    Descending (PriorityQueue.push x q) := by
  induction q with
  | nil => simp [PriorityQueue.push, Descending]
  | cons y q ih =>
    unfold Descending at h ih ⊢
    rw [List.pairwise_cons] at h
    unfold PriorityQueue.push
    by_cases hyx : pairLess y x = true
    · rw [if_pos hyx, List.pairwise_cons]
      refine ⟨?_, List.pairwise_cons.mpr h⟩
      intro b hb
      have hxy : toLex y < toLex x := (pairLess_iff_lex y x).mp hyx
      rw [pairLess_false_iff]
      rcases List.mem_cons.mp hb with rfl | hb
      · exact le_of_lt hxy
      · exact le_trans ((pairLess_false_iff y b).mp (h.1 b hb)) (le_of_lt hxy)
    · rw [if_neg hyx, List.pairwise_cons]
      refine ⟨?_, ih h.2⟩
      intro b hb
      rcases List.mem_cons.mp ((push_perm x q).subset hb) with rfl | hb
      · simpa using hyx
      · exact h.1 b hb

theorem pushAll_perm (score : Nat → double) (l : List Nat) (q : PriorityQueue) :
    (pushAll score l q).Perm (l.map (fun i => (score i, i)) ++ q) := by
  induction l generalizing q with
  | nil => simp [pushAll]
  | cons i l ih =>
    have h1 := ih (PriorityQueue.push (score i, i) q)
    have h2 : (List.map (fun i => (score i, i)) l ++ PriorityQueue.push (score i, i) q).Perm
        (List.map (fun i => (score i, i)) l ++ (score i, i) :: q) :=
      List.Perm.append_left _ (push_perm _ q)
    have h3 : (List.map (fun i => (score i, i)) l ++ (score i, i) :: q).Perm
        ((score i, i) :: (List.map (fun i => (score i, i)) l ++ q)) :=
      List.perm_middle
    simpa [pushAll] using (h1.trans h2).trans h3

theorem pushAll_descending (score : Nat → double) (l : List Nat) (q : PriorityQueue)
    (h : Descending q) : Descending (pushAll score l q) := by
  induction l generalizing q with
  | nil => simpa [pushAll] using h
  | cons i l ih => exact ih _ (push_descending _ q h)

/-! ## Rebuilding the global queue -/

theorem coeff_ok (v : List double) (i : Nat) (h : i < v.length) :
    coeff v i = .ok (v.getD i 0) := by
  simp [coeff, List.getD, List.getElem?_eq_getElem h]

theorem row_ok (m : List Row) (i : Nat) (h : i < m.length) :
    row m i = .ok (m.getD i (0, 0)) := by
  simp [row, List.getD, List.getElem?_eq_getElem h]

theorem confidence_bound_ok (E : Collaborators G) (s : SamplingCore G) (i : Nat)
    (hl : i < s.location_.length) (hm : i < s.mean_prediction_.length)
    (hv : i < s.var_prediction_.length) :
    confidence_bound E s i = .ok (ucbAt E s i) := by
  simp [confidence_bound, ucbAt, coeff_ok _ _ hm, coeff_ok _ _ hv, row_ok _ _ hl, bind,
    Except.bind, pure, Except.pure]

theorem foldlM_push_ok (f : Nat → Except Fault double) (g : Nat → double) (l : List Nat)
    (h : ∀ i ∈ l, f i = .ok (g i)) (q : PriorityQueue) :
    l.foldlM (fun pq i => do
      let v ← f i
      pure (PriorityQueue.push (v, i) pq)) q = .ok (pushAll g l q) := by
  induction l generalizing q with
  | nil => rfl
  | cons i l ih =>
    have hi : f i = .ok (g i) := h i (List.mem_cons_self i l)
    have hl : ∀ j ∈ l, f j = .ok (g j) := fun j hj => h j (List.mem_cons_of_mem i hj)
    simp only [List.foldlM_cons, hi, bind, Except.bind, pure, Except.pure]
    exact ih hl _

theorem UpdateHeuristic_variance (E : Collaborators G) (gps : GPS) (s : SamplingCore G)
    (hm : s.heuristic_mode_ = .VARIANCE)
    (hv : s.location_.length ≤ s.var_prediction_.length) :
    UpdateHeuristic E gps s = .ok
      { s with calls_ := s.calls_ ++ [Call.UpdateHeuristic],
               heuristic_pq_ := pushAll (varianceAt s) (List.range s.location_.length) [] } := by
  have h := foldlM_push_ok (fun i => coeff s.var_prediction_ i) (varianceAt s)
    (List.range s.location_.length)
    (fun i hi => coeff_ok _ _ (lt_of_lt_of_le (List.mem_range.mp hi) hv)) []
  cases s
  simp only at hm h
  subst hm
  simp only [UpdateHeuristic]
  simp only [bind, Except.bind, pure, Except.pure] at h ⊢
  rw [h]

theorem UpdateHeuristic_ucb (E : Collaborators G) (gps : GPS) (s : SamplingCore G)
    (hm : s.heuristic_mode_ = .UCB)
    (hmean : s.location_.length ≤ s.mean_prediction_.length)
    (hv : s.location_.length ≤ s.var_prediction_.length) :
    UpdateHeuristic E gps s = .ok
      { s with calls_ := s.calls_ ++ [Call.UpdateHeuristic],
               heuristic_pq_ := pushAll (ucbAt E s) (List.range s.location_.length) [] } := by
  have h := foldlM_push_ok
    (fun i => confidence_bound E
      { s with calls_ := s.calls_ ++ [Call.UpdateHeuristic] } i) (ucbAt E s)
    (List.range s.location_.length)
    (fun i hi => by
      have hi := List.mem_range.mp hi
      exact confidence_bound_ok E _ i hi (lt_of_lt_of_le hi hmean) (lt_of_lt_of_le hi hv)) []
  cases s
  simp only at hm h
  subst hm
  simp only [UpdateHeuristic]
  simp only [bind, Except.bind, pure, Except.pure] at h ⊢
  rw [h]

/-! ## Serving from the global queue -/

theorem dispense_cons (s : SamplingCore G) (e : double × Nat) (q : PriorityQueue)
    (h : e.2 < s.location_.length) :
    dispense s (e :: q) = .ok (responseAt s e.2, e.2, q) := by
  simp [dispense, PriorityQueue.top, PriorityQueue.pop, row_ok _ _ h, responseAt, bind,
    Except.bind, pure, Except.pure]

theorem assignGlobal_cons (E : Collaborators G) (gps : GPS) (s : SamplingCore G) (res : Response)
    (e : double × Nat) (q : PriorityQueue) (hq : s.heuristic_pq_ = e :: q)
    (h : e.2 < s.location_.length) :
    assignGlobal E gps s res = .ok
      { ret := true, res := responseAt s e.2, index := some e.2,
        state := { s with heuristic_pq_ := q } } := by
  simp [assignGlobal, serveGlobal, hq, PriorityQueue.empty, dispense_cons s e q h, bind,
    Except.bind, pure, Except.pure]

theorem AssignInterestPoint_global (E : Collaborators G) (gps : GPS) (s : SamplingCore G)
    (req : Request) (res : Response)
    (hm : s.heuristic_mode_ = .VARIANCE ∨ s.heuristic_mode_ = .UCB) :
    AssignInterestPoint E gps s req res = assignGlobal E gps s res := by
  rcases hm with hm | hm <;> simp [AssignInterestPoint, hm]

theorem serveRequests_global (E : Collaborators G) (cs : List (GPS × Request × Response)) :
    ∀ (s : SamplingCore G) (q : PriorityQueue),
      (s.heuristic_mode_ = .VARIANCE ∨ s.heuristic_mode_ = .UCB) →
      s.heuristic_pq_ = q → cs.length ≤ q.length →
      (∀ e ∈ q, e.2 < s.location_.length) →
      ∃ as, serveRequests E cs s = .ok as ∧
        as.map (fun a => a.index) = (q.take cs.length).map (fun e => some e.2) ∧
        as.map (fun a => a.ret) = List.replicate cs.length true ∧
        as.map (fun a => a.res) = (q.take cs.length).map (fun e => responseAt s e.2) := by
  induction cs with
  | nil => intro s q _ _ _ _; exact ⟨[], rfl, by simp, by simp, by simp⟩
  | cons c cs ih =>
    intro s q hm hq hlen hidx
    cases q with
    | nil => simp at hlen
    | cons e q =>
      have he : e.2 < s.location_.length := hidx e (List.mem_cons_self e q)
      have hstep := assignGlobal_cons E c.1 s c.2.2 e q hq he
      rw [← AssignInterestPoint_global E c.1 s c.2.1 c.2.2 hm] at hstep
      obtain ⟨as, has, h1, h2, h3⟩ := ih { s with heuristic_pq_ := q } q hm rfl
        (by simpa using hlen) (fun e' he' => hidx e' (List.mem_cons_of_mem e he'))
      refine ⟨{ ret := true, res := responseAt s e.2, index := some e.2,
                state := { s with heuristic_pq_ := q } } :: as, ?_, ?_, ?_, ?_⟩
      · simp only [serveRequests, hstep, has, bind, Except.bind, pure, Except.pure]
      · simp [h1]
      · simp [h2, List.replicate_succ]
      · simpa [responseAt] using h3

/-! ## The queue a rebuild leaves -/

theorem pairLess_false_score {a b : double × Nat} (h : pairLess a b = false) : b.1 ≤ a.1 := by
  rw [pairLess_false_iff, Prod.Lex.le_iff] at h
  rcases h with h | ⟨h, _⟩
  · exact le_of_lt h
  · exact le_of_eq h

theorem pushAll_range_perm (score : Nat → double) (n : Nat) :
    (pushAll score (List.range n) []).Perm ((List.range n).map (fun i => (score i, i))) := by
  simpa using pushAll_perm score (List.range n) []

theorem pushAll_range_mem (score : Nat → double) (n : Nat) (e : double × Nat)
    (h : e ∈ pushAll score (List.range n) []) : e.1 = score e.2 ∧ e.2 < n := by
  have h' := (pushAll_range_perm score n).subset h
  obtain ⟨i, hi, rfl⟩ := List.mem_map.mp h'
  exact ⟨rfl, List.mem_range.mp hi⟩

theorem pushAll_range_snd (score : Nat → double) (n : Nat) :
    ((pushAll score (List.range n) []).map Prod.snd).Perm (List.range n) := by
  have h := (pushAll_range_perm score n).map Prod.snd
  simpa [List.map_map, Function.comp_def] using h

theorem pushAll_range_length (score : Nat → double) (n : Nat) :
    (pushAll score (List.range n) []).length = n := by
  simpa using (pushAll_range_perm score n).length_eq

theorem pushAll_range_scores (score : Nat → double) (n : Nat) :
    ((pushAll score (List.range n) []).map Prod.snd).Pairwise
      (fun i j => score j ≤ score i) := by
  rw [List.pairwise_map]
  have hd : Descending (pushAll score (List.range n) []) :=
    pushAll_descending score (List.range n) [] List.Pairwise.nil
  refine List.Pairwise.imp_of_mem ?_ hd
  intro a b ha hb hab
  have h := pairLess_false_score hab
  rwa [(pushAll_range_mem score n a ha).1, (pushAll_range_mem score n b hb).1] at h

theorem pushAll_range_head (score : Nat → double) (n : Nat) (e : double × Nat)
    (q : PriorityQueue) (h : pushAll score (List.range n) [] = e :: q) :
    ∀ j, j < n → score j ≤ score e.2 := by
  intro j hj
  have hd : Descending (pushAll score (List.range n) []) :=
    pushAll_descending score (List.range n) [] List.Pairwise.nil
  have hmem : (score j, j) ∈ pushAll score (List.range n) [] :=
    (pushAll_range_perm score n).symm.subset
      (List.mem_map.mpr ⟨j, List.mem_range.mpr hj, rfl⟩)
  have he : e.1 = score e.2 := (pushAll_range_mem score n e (by rw [h]; simp)).1
  rw [h] at hd hmem
  rcases List.mem_cons.mp hmem with hje | hjq
  · rw [← hje]
  · have := pairLess_false_score ((List.pairwise_cons.mp hd).1 _ hjq)
    rw [← he]
    exact this

/-! ## VARIANCE mode: the order of dispensing -/

/-- C1. In VARIANCE mode, with a prediction field holding one variance per grid location,
`UpdateHeuristic` succeeds, and any run of at least one and at most `N` requests that
follows it succeeds too: the first request returns true and dispenses a grid index whose
variance is maximal over the grid, and the indices dispensed by the run come in
non-increasing order of variance. -/
theorem C1_variance_dispense_order (E : Collaborators G) (gps : GPS) (s : SamplingCore G)
    (cs : List (GPS × Request × Response))
    (hm : s.heuristic_mode_ = .VARIANCE)
    (hfield : s.var_prediction_.length = s.location_.length)
    (hcs : cs ≠ []) (hlen : cs.length ≤ s.location_.length) :
    ∃ (s1 : SamplingCore G) (a : Assigned G) (as : List (Assigned G)) (i : Nat)
      (idxs : List Nat), UpdateHeuristic E gps s = .ok s1 ∧
      serveRequests E cs s1 = .ok (a :: as) ∧
      a.ret = true ∧ a.index = some i ∧ i < s.location_.length ∧
      (∀ j, j < s.location_.length → varianceAt s j ≤ varianceAt s i) ∧
      (a :: as).map (fun r => r.index) = idxs.map some ∧
      idxs.Pairwise (fun i j => varianceAt s j ≤ varianceAt s i) := by
  have hup := UpdateHeuristic_variance E gps s hm (le_of_eq hfield.symm)
  have hql := pushAll_range_length (varianceAt s) s.location_.length
  obtain ⟨as', hrun, h1, h2, _⟩ := serveRequests_global E cs
    { s with calls_ := s.calls_ ++ [Call.UpdateHeuristic],
             heuristic_pq_ := pushAll (varianceAt s) (List.range s.location_.length) [] }
    (pushAll (varianceAt s) (List.range s.location_.length) []) (Or.inl hm) rfl
    (by rw [hql]; exact hlen) (fun e he => (pushAll_range_mem _ _ e he).2)
  cases cs with
  | nil => exact absurd rfl hcs
  | cons c cs =>
    cases hq : pushAll (varianceAt s) (List.range s.location_.length) [] with
    | nil => rw [hq] at hql; simp at hlen hql; omega
    | cons e q =>
      rw [hq] at h1
      cases as' with
      | nil => simp at h1
      | cons a as =>
        simp only [List.length_cons, List.take_succ_cons, List.map_cons, List.cons.injEq,
          List.replicate_succ] at h1 h2
        refine ⟨_, a, as, e.2, ((e :: q).take (c :: cs).length).map Prod.snd, hup, hrun,
          h2.1, h1.1, ?_, pushAll_range_head _ _ e q hq, ?_, ?_⟩
        · exact (pushAll_range_mem _ _ e (by rw [hq]; simp)).2
        · simp [h1.1, h1.2, List.map_map, Function.comp_def]
        · have hs := pushAll_range_scores (varianceAt s) s.location_.length
          rw [hq] at hs
          exact hs.sublist ((List.take_sublist _ _).map Prod.snd)

/-- Scenario B: with variances `[0.1, 0.9, 0.5]` the hypotheses of C1 hold for two requests,
its conclusion holds, and the two requests dispense index `1`, then index `2`. -/
theorem C1_variance_dispense_order_witness :
    (core3 .VARIANCE [1/10, 9/10, 1/2]).heuristic_mode_ = .VARIANCE ∧
    (core3 .VARIANCE [1/10, 9/10, 1/2]).var_prediction_.length =
      (core3 .VARIANCE [1/10, 9/10, 1/2]).location_.length ∧
    (∃ (s1 : SamplingCore (List (Row × double))) (a : Assigned (List (Row × double)))
      (as : List (Assigned (List (Row × double)))) (i : Nat) (idxs : List Nat),
      UpdateHeuristic demo ⟨none, none⟩ (core3 .VARIANCE [1/10, 9/10, 1/2]) = .ok s1 ∧
      serveRequests demo [ask "jackal", ask "pelican"] s1 = .ok (a :: as) ∧
      a.ret = true ∧ a.index = some i ∧
      i < (core3 .VARIANCE [1/10, 9/10, 1/2]).location_.length ∧
      (∀ j, j < (core3 .VARIANCE [1/10, 9/10, 1/2]).location_.length →
        varianceAt (core3 .VARIANCE [1/10, 9/10, 1/2]) j ≤
          varianceAt (core3 .VARIANCE [1/10, 9/10, 1/2]) i) ∧
      (a :: as).map (fun r => r.index) = idxs.map some ∧
      idxs.Pairwise (fun i j => varianceAt (core3 .VARIANCE [1/10, 9/10, 1/2]) j ≤
        varianceAt (core3 .VARIANCE [1/10, 9/10, 1/2]) i)) ∧
    (∃ s1, UpdateHeuristic demo ⟨none, none⟩ (core3 .VARIANCE [1/10, 9/10, 1/2]) = .ok s1 ∧
      dispensed (serveRequests demo [ask "jackal", ask "pelican"] s1) =
        some [some 1, some 2]) := by
  refine ⟨rfl, rfl, C1_variance_dispense_order demo ⟨none, none⟩ _ _ rfl rfl (by simp)
    (by simp [core3]), ?_⟩
  refine ⟨_, UpdateHeuristic_variance demo ⟨none, none⟩ _ rfl (le_refl _), ?_⟩
  have hq : pushAll (varianceAt (core3 .VARIANCE [1/10, 9/10, 1/2]))
      (List.range (core3 .VARIANCE [1/10, 9/10, 1/2]).location_.length) [] =
      [(9/10, 1), (1/2, 2), (1/10, 0)] := by
    norm_num [pushAll, core3, varianceAt, List.range_succ, PriorityQueue.push, pairLess]
  rw [hq]
  simp [serveRequests, ask, AssignInterestPoint, assignGlobal, serveGlobal, core3, dispense,
    dispensed,
    PriorityQueue.empty, PriorityQueue.top, PriorityQueue.pop, row, bind, Except.bind, pure,
    Except.pure]

theorem pushAll_range_head_lex (score : Nat → double) (n : Nat) (e : double × Nat)
    (q : PriorityQueue) (h : pushAll score (List.range n) [] = e :: q) :
    ∀ j, j < n → score j ≤ score e.2 ∧ (score j = score e.2 → j ≤ e.2) := by
  intro j hj
  have hd : Descending (pushAll score (List.range n) []) :=
    pushAll_descending score (List.range n) [] List.Pairwise.nil
  have hmem : (score j, j) ∈ pushAll score (List.range n) [] :=
    (pushAll_range_perm score n).symm.subset
      (List.mem_map.mpr ⟨j, List.mem_range.mpr hj, rfl⟩)
  have he : e.1 = score e.2 := (pushAll_range_mem score n e (by rw [h]; simp)).1
  rw [h] at hd hmem
  rcases List.mem_cons.mp hmem with hje | hjq
  · rw [← hje]
    exact ⟨le_refl _, fun _ => le_refl _⟩
  · have hle := (pairLess_false_iff _ _).mp ((List.pairwise_cons.mp hd).1 _ hjq)
    rw [Prod.Lex.le_iff] at hle
    simp only at hle
    rw [he] at hle
    rcases hle with hlt | ⟨heq, hidx⟩
    · exact ⟨le_of_lt hlt, fun h' => absurd h' (ne_of_lt hlt)⟩
    · exact ⟨le_of_eq heq, fun _ => hidx⟩

/-! ## UCB mode: ties -/

/-- C2, as the code has it. In UCB mode, with a prediction field holding one mean and one
variance per location of a non-empty grid, the first request after `UpdateHeuristic`
returns true and dispenses an index of maximal score, and among the indices of that score
it dispenses the highest one: every index with the same score is at or below it. -/
theorem C2_ucb_ties_highest_index (E : Collaborators G) (gps : GPS) (s : SamplingCore G)
    (c : GPS × Request × Response)
    (hm : s.heuristic_mode_ = .UCB)
    (hmean : s.mean_prediction_.length = s.location_.length)
    (hvar : s.var_prediction_.length = s.location_.length)
    (hgrid : 0 < s.location_.length) :
    ∃ (s1 : SamplingCore G) (a : Assigned G) (i : Nat),
      UpdateHeuristic E gps s = .ok s1 ∧
      AssignInterestPoint E c.1 s1 c.2.1 c.2.2 = .ok a ∧
      a.ret = true ∧ a.index = some i ∧ i < s.location_.length ∧
      ∀ j, j < s.location_.length →
        ucbAt E s j ≤ ucbAt E s i ∧ (ucbAt E s j = ucbAt E s i → j ≤ i) := by
  have hup := UpdateHeuristic_ucb E gps s hm (le_of_eq hmean.symm) (le_of_eq hvar.symm)
  have hql := pushAll_range_length (ucbAt E s) s.location_.length
  cases hq : pushAll (ucbAt E s) (List.range s.location_.length) [] with
  | nil => rw [hq] at hql; simp at hql; omega
  | cons e q =>
    have he : e.2 < s.location_.length := (pushAll_range_mem _ _ e (by rw [hq]; simp)).2
    rw [hq] at hup
    have hstep := assignGlobal_cons E c.1
      { s with calls_ := s.calls_ ++ [Call.UpdateHeuristic], heuristic_pq_ := e :: q }
      c.2.2 e q rfl he
    have hag := AssignInterestPoint_global E c.1
      { s with calls_ := s.calls_ ++ [Call.UpdateHeuristic], heuristic_pq_ := e :: q }
      c.2.1 c.2.2 (Or.inr hm)
    exact ⟨_, _, e.2, hup, hag.trans hstep, rfl, rfl, he, pushAll_range_head_lex _ _ e q hq⟩

theorem core3_ucb_scores (i : Nat) (hi : i < 3) : ucbAt demo (core3 .UCB [1, 1, 1]) i = 2 := by
  have h1 : rationalSqrt 1 = 1 := by simp [rationalSqrt]
  interval_cases i <;>
    norm_num [ucbAt, core3, demo, initSampleCount, Function.update_apply, h1]

theorem core3_ucb_queue :
    pushAll (ucbAt demo (core3 .UCB [1, 1, 1]))
      (List.range (core3 .UCB [1, 1, 1]).location_.length) [] = [(2, 2), (2, 1), (2, 0)] := by
  have h0 := core3_ucb_scores 0 (by norm_num)
  have h1 := core3_ucb_scores 1 (by norm_num)
  have h2 := core3_ucb_scores 2 (by norm_num)
  have hl : (core3 .UCB [1, 1, 1]).location_.length = 3 := rfl
  rw [hl]
  norm_num [pushAll, List.range_succ, PriorityQueue.push, pairLess, h0, h1, h2]

/-- Scenario C: visit counts `[1, 1, 1]`, mean `[0, 0, 0]`, variance `[1, 1, 1]`, `c = 2`.
The hypotheses of C2 hold and so does its conclusion; all three scores equal `2`. -/
theorem C2_ucb_ties_highest_index_witness :
    (core3 .UCB [1, 1, 1]).heuristic_mode_ = .UCB ∧
    (core3 .UCB [1, 1, 1]).mean_prediction_.length = (core3 .UCB [1, 1, 1]).location_.length ∧
    (core3 .UCB [1, 1, 1]).var_prediction_.length = (core3 .UCB [1, 1, 1]).location_.length ∧
    0 < (core3 .UCB [1, 1, 1]).location_.length ∧
    (∀ i, i < 3 → ucbAt demo (core3 .UCB [1, 1, 1]) i = 2) ∧
    ∃ (s1 : SamplingCore (List (Row × double))) (a : Assigned (List (Row × double)))
      (i : Nat),
      UpdateHeuristic demo ⟨none, none⟩ (core3 .UCB [1, 1, 1]) = .ok s1 ∧
      AssignInterestPoint demo (ask "jackal").1 s1 (ask "jackal").2.1 (ask "jackal").2.2 =
        .ok a ∧
      a.ret = true ∧ a.index = some i ∧ i < (core3 .UCB [1, 1, 1]).location_.length ∧
      ∀ j, j < (core3 .UCB [1, 1, 1]).location_.length →
        ucbAt demo (core3 .UCB [1, 1, 1]) j ≤ ucbAt demo (core3 .UCB [1, 1, 1]) i ∧
        (ucbAt demo (core3 .UCB [1, 1, 1]) j = ucbAt demo (core3 .UCB [1, 1, 1]) i → j ≤ i) :=
  ⟨rfl, rfl, rfl, by simp [core3], core3_ucb_scores,
    C2_ucb_ties_highest_index demo ⟨none, none⟩ (core3 .UCB [1, 1, 1]) (ask "jackal") rfl rfl
      rfl (by simp [core3])⟩

/-- Scenario C run on the code: all three scores equal `2`, and the first request after
`UpdateHeuristic` dispenses grid index `2`, not grid index `0`. -/
theorem C2_lowest_index_counterexample :
    (∀ i, i < 3 → ucbAt demo (core3 .UCB [1, 1, 1]) i = 2) ∧
    dispensed (UpdateHeuristic demo ⟨none, none⟩ (core3 .UCB [1, 1, 1]) >>=
      serveRequests demo [ask "jackal"]) = some [some 2] ∧
    dispensed (UpdateHeuristic demo ⟨none, none⟩ (core3 .UCB [1, 1, 1]) >>=
      serveRequests demo [ask "jackal"]) ≠ some [some 0] := by
  have hrun : dispensed (UpdateHeuristic demo ⟨none, none⟩ (core3 .UCB [1, 1, 1]) >>=
      serveRequests demo [ask "jackal"]) = some [some 2] := by
    rw [UpdateHeuristic_ucb demo ⟨none, none⟩ _ rfl (le_refl _) (le_refl _), core3_ucb_queue]
    simp [serveRequests, ask, AssignInterestPoint, assignGlobal, serveGlobal, core3, dispense,
    dispensed,
      PriorityQueue.empty, PriorityQueue.top, PriorityQueue.pop, row, bind, Except.bind,
      pure, Except.pure]
  refine ⟨core3_ucb_scores, hrun, ?_⟩
  rw [hrun]
  decide

/-! ## DISTANCE_UCB mode: which queue serves which robot -/

theorem stringCompare_eq_zero (a b : String) : stringCompare a b = 0 ↔ a = b := by
  unfold stringCompare
  by_cases h : a = b
  · simp [h]
  · rw [if_neg h]
    constructor
    · intro h0
      split at h0 <;> simp at h0
    · intro h'
      exact absurd h' h

theorem lnot_stringCompare (a b : String) : lnot (stringCompare a b) = 0 ↔ a ≠ b := by
  unfold lnot
  have hz := stringCompare_eq_zero a b
  by_cases h : stringCompare a b = 0
  · rw [if_pos h]
    exact ⟨fun h' => absurd h' (by norm_num), fun h' => absurd (hz.mp h) h'⟩
  · have hab : a ≠ b := fun h' => h (hz.mpr h')
    simp [h, hab]

theorem assignFromQueue_cons (s : SamplingCore G) (k : Nat) (res : Response)
    (e : double × Nat) (q : PriorityQueue) (hk : s.heuristic_pq_v_[k]? = some (e :: q))
    (h : e.2 < s.location_.length) :
    assignFromQueue s k res = .ok
      { ret := true, res := responseAt s e.2, index := some e.2,
        state := { s with heuristic_pq_v_ := s.heuristic_pq_v_.set k q } } := by
  simp [assignFromQueue, queueAt, hk, PriorityQueue.empty, dispense_cons s e q h, bind,
    Except.bind, pure, Except.pure]

/-- What the DISTANCE_UCB case does with two non-empty per-robot queues and distinct robot
ids: the request carrying the Jackal id is served from queue `1`, every other request from
queue `0`. -/
theorem AssignInterestPoint_distance_ucb (E : Collaborators G) (gps : GPS)
    (s : SamplingCore G) (req : Request) (res : Response)
    (e0 e1 : double × Nat) (q0 q1 : PriorityQueue) (rest : List PriorityQueue)
    (hm : s.heuristic_mode_ = .DISTANCE_UCB)
    (hv : s.heuristic_pq_v_ = (e0 :: q0) :: (e1 :: q1) :: rest)
    (hid : s.Jackal_id_ ≠ s.Pelican_id_)
    (h0 : e0.2 < s.location_.length) (h1 : e1.2 < s.location_.length) :
    AssignInterestPoint E gps s req res = .ok
      (if req.robot_id = s.Jackal_id_ then
        { ret := true, res := responseAt s e1.2, index := some e1.2,
          state := { s with heuristic_pq_v_ := (e0 :: q0) :: q1 :: rest } }
      else
        { ret := true, res := responseAt s e0.2, index := some e0.2,
          state := { s with heuristic_pq_v_ := q0 :: (e1 :: q1) :: rest } }) := by
  have hk0 : s.heuristic_pq_v_[0]? = some (e0 :: q0) := by rw [hv]; rfl
  have hk1 : s.heuristic_pq_v_[1]? = some (e1 :: q1) := by rw [hv]; simp
  have a0 := assignFromQueue_cons s 0 res e0 q0 hk0 h0
  have a1 := assignFromQueue_cons s 1 res e1 q1 hk1 h1
  rw [hv] at a0 a1
  simp only [List.set_cons_zero, List.set_cons_succ, hm] at a0 a1
  by_cases hj : req.robot_id = s.Jackal_id_
  · have hp : req.robot_id ≠ s.Pelican_id_ := fun h => hid (hj.symm.trans h)
    have c1 : ¬ lnot (stringCompare req.robot_id s.Jackal_id_) = 0 := by
      rw [lnot_stringCompare]; exact fun h => h hj
    have c2 : lnot (stringCompare req.robot_id s.Pelican_id_) = 0 :=
      (lnot_stringCompare _ _).mpr hp
    simp only [AssignInterestPoint, assignByRobot, hm, hv, List.isEmpty_cons,
      Bool.false_eq_true, if_false]
    rw [if_neg c1, if_pos c2, if_pos hj]
    exact a1
  · have c1 : lnot (stringCompare req.robot_id s.Jackal_id_) = 0 :=
      (lnot_stringCompare _ _).mpr hj
    simp only [AssignInterestPoint, assignByRobot, hm, hv, List.isEmpty_cons,
      Bool.false_eq_true, if_false]
    rw [if_pos c1, if_neg hj]
    exact a0

/-- C3 on the code. With queue `0` holding grid index `0` and queue `1` holding grid index
`1`, the request of the Jackal pops queue `1` and leaves queue `0` alone, and the request of
the Pelican pops queue `0` and leaves queue `1` alone. -/
theorem C3_robot_queues_swapped :
    core3Queued.heuristic_mode_ = .DISTANCE_UCB ∧
    core3Queued.Jackal_id_ = "jackal" ∧ core3Queued.Pelican_id_ = "pelican" ∧
    observed (AssignInterestPoint demo ⟨none, none⟩ core3Queued ⟨"jackal"⟩ ⟨0, 0⟩) =
      some (true, some 1, [[(1, 0)], []]) ∧
    observed (AssignInterestPoint demo ⟨none, none⟩ core3Queued ⟨"pelican"⟩ ⟨0, 0⟩) =
      some (true, some 0, [[], [(2, 1)]]) := by
  have hid : core3Queued.Jackal_id_ ≠ core3Queued.Pelican_id_ := by
    simp only [core3Queued, core3]; decide
  have hl : core3Queued.location_.length = 3 := rfl
  have hj := AssignInterestPoint_distance_ucb demo ⟨none, none⟩ core3Queued ⟨"jackal"⟩ ⟨0, 0⟩
    (1, 0) (2, 1) [] [] [] rfl rfl hid (by rw [hl]; norm_num) (by rw [hl]; norm_num)
  have hp := AssignInterestPoint_distance_ucb demo ⟨none, none⟩ core3Queued ⟨"pelican"⟩ ⟨0, 0⟩
    (1, 0) (2, 1) [] [] [] rfl rfl hid (by rw [hl]; norm_num) (by rw [hl]; norm_num)
  have e1 : (⟨"jackal"⟩ : Request).robot_id = core3Queued.Jackal_id_ := rfl
  have e2 : ¬ (⟨"pelican"⟩ : Request).robot_id = core3Queued.Jackal_id_ := by
    simp only [core3Queued, core3]; decide
  rw [if_pos e1] at hj
  rw [if_neg e2] at hp
  refine ⟨rfl, rfl, rfl, ?_, ?_⟩
  · rw [hj]; rfl
  · rw [hp]; rfl

/-! ## VARIANCE and UCB modes: no index twice between rebuilds -/

theorem UpdateHeuristic_global (E : Collaborators G) (gps : GPS) (s : SamplingCore G)
    (hm : s.heuristic_mode_ = .VARIANCE ∨ s.heuristic_mode_ = .UCB)
    (hmean : s.heuristic_mode_ = .UCB → s.location_.length ≤ s.mean_prediction_.length)
    (hvar : s.location_.length ≤ s.var_prediction_.length) :
    ∃ score : Nat → double, UpdateHeuristic E gps s = .ok
      { s with calls_ := s.calls_ ++ [Call.UpdateHeuristic],
               heuristic_pq_ := pushAll score (List.range s.location_.length) [] } := by
  rcases hm with hm | hm
  · exact ⟨_, UpdateHeuristic_variance E gps s hm hvar⟩
  · exact ⟨_, UpdateHeuristic_ucb E gps s hm (hmean hm) hvar⟩

/-- C4. In VARIANCE and UCB modes, with a prediction field that covers the grid of `N`
locations, `UpdateHeuristic` succeeds and any run of at most `N` requests after it
succeeds, every request returning true; the grid indices dispensed are pairwise distinct
and below `N`, and when the run has exactly `N` requests they are a permutation of
`0 .. N-1`. -/
theorem C4_global_queue_dispenses_permutation (E : Collaborators G) (gps : GPS)
    (s : SamplingCore G) (cs : List (GPS × Request × Response))
    (hm : s.heuristic_mode_ = .VARIANCE ∨ s.heuristic_mode_ = .UCB)
    (hmean : s.heuristic_mode_ = .UCB → s.location_.length ≤ s.mean_prediction_.length)
    (hvar : s.location_.length ≤ s.var_prediction_.length)
    (hlen : cs.length ≤ s.location_.length) :
    ∃ (s1 : SamplingCore G) (as : List (Assigned G)) (idxs : List Nat),
      UpdateHeuristic E gps s = .ok s1 ∧ serveRequests E cs s1 = .ok as ∧
      as.map (fun a => a.ret) = List.replicate cs.length true ∧
      as.map (fun a => a.index) = idxs.map some ∧
      idxs.Nodup ∧ (∀ i ∈ idxs, i < s.location_.length) ∧
      (cs.length = s.location_.length → idxs.Perm (List.range s.location_.length)) := by
  obtain ⟨score, hup⟩ := UpdateHeuristic_global E gps s hm hmean hvar
  have hql := pushAll_range_length score s.location_.length
  have hperm := pushAll_range_snd score s.location_.length
  obtain ⟨as, hrun, h1, h2, _⟩ := serveRequests_global E cs
    { s with calls_ := s.calls_ ++ [Call.UpdateHeuristic],
             heuristic_pq_ := pushAll score (List.range s.location_.length) [] }
    (pushAll score (List.range s.location_.length) []) hm rfl
    (by rw [hql]; exact hlen) (fun e he => (pushAll_range_mem _ _ e he).2)
  have hsub : (((pushAll score (List.range s.location_.length) []).take cs.length).map
      Prod.snd).Sublist ((pushAll score (List.range s.location_.length) []).map Prod.snd) :=
    (List.take_sublist _ _).map Prod.snd
  refine ⟨_, as, ((pushAll score (List.range s.location_.length) []).take cs.length).map
    Prod.snd, hup, hrun, h2, ?_, ?_, ?_, ?_⟩
  · simp [h1, List.map_map, Function.comp_def]
  · exact ((hperm.nodup_iff).mpr (List.nodup_range _)).sublist hsub
  · intro i hi
    exact List.mem_range.mp (hperm.subset (hsub.subset hi))
  · intro hN
    have htake : (pushAll score (List.range s.location_.length) []).take cs.length =
        pushAll score (List.range s.location_.length) [] :=
      List.take_of_length_le (by rw [hql, hN])
    rw [htake]
    exact hperm

/-- The hypotheses of C4 hold for three requests on the three-location grid in UCB mode, and
its conclusion holds there. -/
theorem C4_global_queue_dispenses_permutation_witness :
    ((core3 .UCB [1, 1, 1]).heuristic_mode_ = .VARIANCE ∨
      (core3 .UCB [1, 1, 1]).heuristic_mode_ = .UCB) ∧
    (core3 .UCB [1, 1, 1]).location_.length ≤ (core3 .UCB [1, 1, 1]).mean_prediction_.length ∧
    (core3 .UCB [1, 1, 1]).location_.length ≤ (core3 .UCB [1, 1, 1]).var_prediction_.length ∧
    [ask "jackal", ask "pelican", ask "jackal"].length ≤
      (core3 .UCB [1, 1, 1]).location_.length ∧
    ∃ (s1 : SamplingCore (List (Row × double))) (as : List (Assigned (List (Row × double))))
      (idxs : List Nat),
      UpdateHeuristic demo ⟨none, none⟩ (core3 .UCB [1, 1, 1]) = .ok s1 ∧
      serveRequests demo [ask "jackal", ask "pelican", ask "jackal"] s1 = .ok as ∧
      as.map (fun a => a.ret) =
        List.replicate [ask "jackal", ask "pelican", ask "jackal"].length true ∧
      as.map (fun a => a.index) = idxs.map some ∧
      idxs.Nodup ∧ (∀ i ∈ idxs, i < (core3 .UCB [1, 1, 1]).location_.length) ∧
      ([ask "jackal", ask "pelican", ask "jackal"].length =
          (core3 .UCB [1, 1, 1]).location_.length →
        idxs.Perm (List.range (core3 .UCB [1, 1, 1]).location_.length)) :=
  ⟨Or.inr rfl, le_refl _, le_refl _, le_refl _,
    C4_global_queue_dispenses_permutation demo ⟨none, none⟩ (core3 .UCB [1, 1, 1])
      [ask "jackal", ask "pelican", ask "jackal"] (Or.inr rfl) (fun _ => le_refl _)
      (le_refl _) (le_refl _)⟩

/-! ## What the operations leave alone -/

theorem UpdateHeuristic_frame (E : Collaborators G) (gps : GPS) (s s' : SamplingCore G)
    (h : UpdateHeuristic E gps s = .ok s') :
    ∃ pq pqv, s' = { s with calls_ := s.calls_ ++ [Call.UpdateHeuristic],
                            heuristic_pq_ := pq, heuristic_pq_v_ := pqv } := by
  unfold UpdateHeuristic at h
  simp only [bind, Except.bind, pure, Except.pure] at h
  split at h
  · split at h
    · exact absurd h (by simp)
    · next pq _ =>
      injection h with h
      exact ⟨pq, s.heuristic_pq_v_, h.symm⟩
  · split at h
    · exact absurd h (by simp)
    · next pq _ =>
      injection h with h
      exact ⟨pq, s.heuristic_pq_v_, h.symm⟩
  · split at h
    · injection h with h
      exact ⟨s.heuristic_pq_, [], h.symm⟩
    · split at h
      · injection h with h
        exact ⟨s.heuristic_pq_, [], h.symm⟩
      · split at h
        · exact absurd h (by simp)
        · next v _ =>
          injection h with h
          exact ⟨s.heuristic_pq_, v, h.symm⟩

theorem Untouched.refl (s : SamplingCore G) : Untouched s s :=
  ⟨rfl, rfl, rfl, rfl, rfl, rfl, rfl, rfl, rfl, rfl, rfl⟩

theorem Untouched.trans {s s' s'' : SamplingCore G} (h : Untouched s s')
    (h' : Untouched s' s'') : Untouched s s'' := by
  obtain ⟨a1, a2, a3, a4, a5, a6, a7, a8, a9, a10, a11⟩ := h
  obtain ⟨b1, b2, b3, b4, b5, b6, b7, b8, b9, b10, b11⟩ := h'
  exact ⟨b1.trans a1, b2.trans a2, b3.trans a3, b4.trans a4, b5.trans a5, b6.trans a6,
    b7.trans a7, b8.trans a8, b9.trans a9, b10.trans a10, b11.trans a11⟩

theorem UpdateHeuristic_untouched (E : Collaborators G) (gps : GPS) (s s' : SamplingCore G)
    (h : UpdateHeuristic E gps s = .ok s') : Untouched s s' := by
  obtain ⟨pq, pqv, rfl⟩ := UpdateHeuristic_frame E gps s s' h
  exact ⟨rfl, rfl, rfl, rfl, rfl, rfl, rfl, rfl, rfl, rfl, rfl⟩

theorem forcedRebuild_untouched (E : Collaborators G) (gps : GPS) (s s' : SamplingCore G)
    (h : forcedRebuild E gps s = .ok s') : Untouched s s' := by
  unfold forcedRebuild at h
  obtain ⟨a1, a2, a3, a4, a5, a6, a7, a8, a9, a10, a11⟩ :=
    UpdateHeuristic_untouched E gps _ s' h
  exact ⟨a1, a2, a3, a4, a5, a6, a7, a8, a9, a10, a11⟩

theorem serveGlobal_untouched (s : SamplingCore G) (a : Assigned G)
    (h : serveGlobal s = .ok a) : Untouched s a.state := by
  unfold serveGlobal at h
  simp only [bind, Except.bind, pure, Except.pure] at h
  split at h
  · exact absurd h (by simp)
  · injection h with h
    subst h
    exact Untouched.refl s

theorem assignGlobal_untouched (E : Collaborators G) (gps : GPS) (s : SamplingCore G)
    (res : Response) (a : Assigned G) (h : assignGlobal E gps s res = .ok a) :
    Untouched s a.state := by
  unfold assignGlobal at h
  simp only [bind, Except.bind, pure, Except.pure] at h
  split at h
  · split at h
    · exact absurd h (by simp)
    · next s1 hs1 =>
      have h1 := forcedRebuild_untouched E gps s s1 hs1
      split at h
      · injection h with h
        subst h
        exact h1
      · exact h1.trans (serveGlobal_untouched s1 a h)
  · exact serveGlobal_untouched s a h

theorem assignFromQueue_untouched (s : SamplingCore G) (k : Nat) (res : Response)
    (a : Assigned G) (h : assignFromQueue s k res = .ok a) : Untouched s a.state := by
  unfold assignFromQueue at h
  simp only [bind, Except.bind, pure, Except.pure] at h
  split at h
  · exact absurd h (by simp)
  · split at h
    · split at h
      · exact absurd h (by simp)
      · injection h with h
        subst h
        exact Untouched.refl s
    · injection h with h
      subst h
      exact Untouched.refl s

theorem assignByRobot_untouched (s : SamplingCore G) (req : Request) (res : Response)
    (a : Assigned G) (h : assignByRobot s req res = .ok a) : Untouched s a.state := by
  unfold assignByRobot at h
  split at h
  · exact assignFromQueue_untouched s 0 res a h
  · split at h
    · exact assignFromQueue_untouched s 1 res a h
    · injection h with h
      subst h
      exact Untouched.refl s

theorem AssignInterestPoint_untouched (E : Collaborators G) (gps : GPS) (s : SamplingCore G)
    (req : Request) (res : Response) (a : Assigned G)
    (h : AssignInterestPoint E gps s req res = .ok a) : Untouched s a.state := by
  unfold AssignInterestPoint at h
  split at h
  · exact assignGlobal_untouched E gps s res a h
  · exact assignGlobal_untouched E gps s res a h
  · simp only [bind, Except.bind, pure, Except.pure] at h
    split at h
    · split at h
      · exact absurd h (by simp)
      · next s1 hs1 =>
        have h1 := forcedRebuild_untouched E gps s s1 hs1
        split at h
        · injection h with h
          subst h
          exact h1
        · exact h1.trans (assignByRobot_untouched s1 req res a h)
    · exact assignByRobot_untouched s req res a h

/-! ## The visit ledger -/

theorem initSampleCount_spec (location : List Row) (count : Row → Nat) (k : Row) :
    (k ∈ location → initSampleCount location count k = 1) ∧
    (k ∉ location → initSampleCount location count k = count k) := by
  induction location generalizing count with
  | nil => simp [initSampleCount]
  | cons x l ih =>
    have hstep : initSampleCount (x :: l) count = initSampleCount l (Function.update count x 1) :=
      rfl
    rw [hstep]
    obtain ⟨ih1, ih2⟩ := ih (Function.update count x 1)
    constructor
    · intro hk
      by_cases hkl : k ∈ l
      · exact ih1 hkl
      · rcases List.mem_cons.mp hk with rfl | hk'
        · rw [ih2 hkl, Function.update_same]
        · exact absurd hk' hkl
    · intro hk
      have hkx : k ≠ x := fun h => hk (h ▸ List.mem_cons_self x l)
      have hkl : k ∉ l := fun h => hk (List.mem_cons_of_mem x h)
      rw [ih2 hkl, Function.update_noteq hkx]

theorem ParseFromRosParam_ledger (p : RosParam) (s s' : SamplingCore G)
    (h : ParseFromRosParam p s = some s') :
    ∃ location, p.location_data = some location ∧ s'.location_ = location ∧
      s'.sample_count_ = initSampleCount location s.sample_count_ := by
  unfold ParseFromRosParam at h
  cases h1 : p.location_data with
  | none => simp [h1] at h
  | some location =>
    cases h2 : p.map_scale with
    | none => simp [h1, h2] at h
    | some ms =>
      cases h3 : p.heuristic_mode with
      | none => simp [h1, h2, h3] at h
      | some hmode =>
        cases h4 : p.Jackal_id with
        | none => simp [h1, h2, h3, h4] at h
        | some jid =>
          cases h5 : p.Pelican_id with
          | none => simp [h1, h2, h3, h4, h5] at h
          | some pid =>
            cases h6 : p.scale_factor with
            | none => simp [h1, h2, h3, h4, h5, h6] at h
            | some sf =>
              cases h7 : p.variable_coeff with
              | none => simp [h1, h2, h3, h4, h5, h6, h7] at h
              | some vc =>
                simp only [h1, h2, h3, h4, h5, h6, h7, Option.bind_eq_bind, Option.some_bind,
                  Option.pure_def, Option.some.injEq] at h
                subst h
                exact ⟨location, rfl, rfl, rfl⟩

theorem CollectSampleCallback_invalid (E : Collaborators G) (s : SamplingCore G)
    (msg : measurement) (hv : msg.valid = false) : CollectSampleCallback E s msg = .ok s := by
  simp [CollectSampleCallback, hv, pure, Except.pure]

theorem CollectSampleCallback_valid (E : Collaborators G) (s : SamplingCore G)
    (msg : measurement) (hv : msg.valid = true) (hr : s.model_update_rate_ ≠ 0) :
    CollectSampleCallback E s msg = .ok
      { s with sample_size_ := s.sample_size_ + 1,
               update_flag_ :=
                 decide ((s.sample_size_ + 1) % s.model_update_rate_ = 0) || s.update_flag_,
               sample_count_ := Function.update s.sample_count_ (ledgerKey s msg)
                 (s.sample_count_ (ledgerKey s msg) + 1),
               gp_node_ := E.AddTrainingData s.gp_node_ (ledgerKey s msg) msg.measurement } := by
  unfold CollectSampleCallback
  rw [if_pos hv]
  simp only
  rw [if_neg hr]
  by_cases hmod : (s.sample_size_ + 1) % s.model_update_rate_ = 0
  · simp [hmod, ledgerKey, pure, Except.pure]
  · simp [hmod, ledgerKey, pure, Except.pure]

theorem CollectSampleCallback_zero_rate (E : Collaborators G) (s : SamplingCore G)
    (msg : measurement) (hv : msg.valid = true) (hr : s.model_update_rate_ = 0) :
    CollectSampleCallback E s msg = .error .moduloByZero := by
  unfold CollectSampleCallback
  rw [if_pos hv]
  simp only
  rw [if_pos hr]

theorem CollectSampleCallback_ledger (E : Collaborators G) (s s' : SamplingCore G)
    (msg : measurement) (h : CollectSampleCallback E s msg = .ok s') :
    s'.location_ = s.location_ ∧ ∀ k, s.sample_count_ k ≤ s'.sample_count_ k := by
  cases hv : msg.valid with
  | false =>
    rw [CollectSampleCallback_invalid E s msg hv] at h
    injection h with h
    subst h
    exact ⟨rfl, fun _ => le_refl _⟩
  | true =>
    by_cases hr : s.model_update_rate_ = 0
    · rw [CollectSampleCallback_zero_rate E s msg hv hr] at h
      exact absurd h (by simp)
    · rw [CollectSampleCallback_valid E s msg hv hr] at h
      injection h with h
      subst h
      refine ⟨rfl, fun k => ?_⟩
      simp only
      by_cases hk : k = ledgerKey s msg
      · rw [hk, Function.update_same]
        exact Nat.le_succ _
      · rw [Function.update_noteq hk]

theorem Update_ledger (E : Collaborators G) (gps : GPS) (s s' : SamplingCore G)
    (h : Update E gps s = .ok s') :
    s'.location_ = s.location_ ∧ s'.sample_count_ = s.sample_count_ := by
  unfold Update at h
  split at h
  · have hu := UpdateHeuristic_untouched E gps _ s' h
    exact ⟨hu.1, hu.2.2.2.2.2.2.2.2.2.2⟩
  · simp only [pure, Except.pure] at h
    injection h with h
    subst h
    exact ⟨rfl, rfl⟩

theorem step_ledger (E : Collaborators G) (s s' : SamplingCore G) (op : Op)
    (h : step E s op = .ok s') :
    s'.location_ = s.location_ ∧ ∀ k, s.sample_count_ k ≤ s'.sample_count_ k := by
  cases op with
  | collect msg => exact CollectSampleCallback_ledger E s s' msg h
  | assign gps req res =>
    simp only [step, bind, Except.bind, pure, Except.pure] at h
    split at h
    · exact absurd h (by simp)
    · next a ha =>
      injection h with h
      subst h
      have hu := AssignInterestPoint_untouched E gps s req res a ha
      exact ⟨hu.1, fun k => le_of_eq (congrFun hu.2.2.2.2.2.2.2.2.2.2 k).symm⟩
  | update gps =>
    have hu := Update_ledger E gps s s' h
    exact ⟨hu.1, fun k => le_of_eq (congrFun hu.2 k).symm⟩

theorem run_ledger (E : Collaborators G) (ops : List Op) :
    ∀ (s s' : SamplingCore G), run E ops s = .ok s' →
      s'.location_ = s.location_ ∧ ∀ k, s.sample_count_ k ≤ s'.sample_count_ k := by
  induction ops with
  | nil =>
    intro s s' h
    simp only [run, pure, Except.pure] at h
    injection h with h
    subst h
    exact ⟨rfl, fun _ => le_refl _⟩
  | cons op ops ih =>
    intro s s' h
    simp only [run, bind, Except.bind] at h
    split at h
    · exact absurd h (by simp)
    · next s1 hs1 =>
      obtain ⟨l1, c1⟩ := step_ledger E s s1 op hs1
      obtain ⟨l2, c2⟩ := ih s1 s' h
      exact ⟨l2.trans l1, fun k => le_trans (c1 k) (c2 k)⟩

/-- C5. Once `ParseFromRosParam` has returned true every grid location has visit count `1`;
after any sequence of `CollectSampleCallback`, `AssignInterestPoint` and `Update` calls the
grid is the same and the count of every grid location is at least `1`, and any further such
sequence leaves it at least as large.  With a square root that does not vanish on counts from
`1` up, the divisor `sqrt(sample_count_[..])` of the UCB score is then non-zero. -/
theorem C5_visit_count_never_below_one (E : Collaborators G) (p : RosParam)
    (s0 s1 s2 s3 : SamplingCore G) (ops ops' : List Op)
    (hload : ParseFromRosParam p s0 = some s1)
    (hrun : run E ops s1 = .ok s2) (hrun' : run E ops' s2 = .ok s3)
    (hsqrt : ∀ n : Nat, 1 ≤ n → E.sqrt n ≠ 0) :
    s2.location_ = s1.location_ ∧
    ∀ k ∈ s1.location_, s1.sample_count_ k = 1 ∧ 1 ≤ s2.sample_count_ k ∧
      s2.sample_count_ k ≤ s3.sample_count_ k ∧ E.sqrt (s2.sample_count_ k) ≠ 0 := by
  obtain ⟨location, _, hl, hc⟩ := ParseFromRosParam_ledger p s0 s1 hload
  obtain ⟨l2, c2⟩ := run_ledger E ops s1 s2 hrun
  obtain ⟨_, c3⟩ := run_ledger E ops' s2 s3 hrun'
  refine ⟨l2, fun k hk => ?_⟩
  have h1 : s1.sample_count_ k = 1 := by
    rw [hc]
    exact (initSampleCount_spec location s0.sample_count_ k).1 (hl ▸ hk)
  have h2 : 1 ≤ s2.sample_count_ k := h1 ▸ c2 k
  exact ⟨h1, h2, c3 k, hsqrt _ h2⟩

theorem rationalSqrt_natCast_ne_zero (n : Nat) (h : 1 ≤ n) : rationalSqrt (n : ℚ) ≠ 0 := by
  have hpos : 0 < Nat.sqrt n := Nat.sqrt_pos.mpr h
  have hne : (Nat.sqrt n : ℚ) ≠ 0 := by exact_mod_cast (Nat.pos_iff_ne_zero.mp hpos)
  simp [rationalSqrt, hne]

/-- The hypotheses of C5 hold for a three-location grid loaded from `params3`, a first
sequence (one valid sample, one `Update`) and a second one (an `Update`, one more valid
sample); its conclusion holds for the states they produce. -/
theorem C5_visit_count_never_below_one_witness :
    ∃ s1 s2 s3 : SamplingCore (List (Row × double)),
      ParseFromRosParam params3 (core3 .VARIANCE []) = some s1 ∧
      run demo [.collect (sampleAt (1/2) 0), .update ⟨none, none⟩] s1 = .ok s2 ∧
      run demo [.update ⟨none, none⟩, .collect (sampleAt 1 0)] s2 = .ok s3 ∧
      (∀ n : Nat, 1 ≤ n → demo.sqrt n ≠ 0) ∧
      (s2.location_ = s1.location_ ∧
        ∀ k ∈ s1.location_, s1.sample_count_ k = 1 ∧ 1 ≤ s2.sample_count_ k ∧
          s2.sample_count_ k ≤ s3.sample_count_ k ∧ demo.sqrt (s2.sample_count_ k) ≠ 0) :=
  ⟨_, _, _, rfl, rfl, rfl, rationalSqrt_natCast_ne_zero,
    C5_visit_count_never_below_one demo params3 (core3 .VARIANCE []) _ _ _
      [.collect (sampleAt (1/2) 0), .update ⟨none, none⟩]
      [.update ⟨none, none⟩, .collect (sampleAt 1 0)] rfl rfl rfl
      rationalSqrt_natCast_ne_zero⟩

/-! ## Receiving a measurement -/

/-- C6. A measurement with `valid = false` leaves the whole state as it was, so the sample
counter, the update flag, the visit ledger, the training data of the mixture and the
heuristic queues are unchanged, and a request that follows gives what it would have given
without the message. -/
theorem C6_invalid_measurement_is_ignored (E : Collaborators G) (gps : GPS)
    (s : SamplingCore G) (msg : measurement) (req : Request) (res : Response)
    (hv : msg.valid = false) :
    CollectSampleCallback E s msg = .ok s ∧
    (CollectSampleCallback E s msg >>= fun s' => AssignInterestPoint E gps s' req res) =
      AssignInterestPoint E gps s req res := by
  have h := CollectSampleCallback_invalid E s msg hv
  refine ⟨h, ?_⟩
  rw [h]
  rfl

/-- The hypothesis of C6 holds for an invalid report on the three-location grid, and so does
its conclusion. -/
theorem C6_invalid_measurement_is_ignored_witness :
    ({ sampleAt 1 0 with valid := false } : measurement).valid = false ∧
    (CollectSampleCallback demo (core3 .VARIANCE [1/10, 9/10, 1/2])
        { sampleAt 1 0 with valid := false } = .ok (core3 .VARIANCE [1/10, 9/10, 1/2]) ∧
      (CollectSampleCallback demo (core3 .VARIANCE [1/10, 9/10, 1/2])
          { sampleAt 1 0 with valid := false } >>=
        fun s' => AssignInterestPoint demo ⟨none, none⟩ s' ⟨"jackal"⟩ ⟨0, 0⟩) =
      AssignInterestPoint demo ⟨none, none⟩ (core3 .VARIANCE [1/10, 9/10, 1/2]) ⟨"jackal"⟩
        ⟨0, 0⟩) :=
  ⟨rfl, C6_invalid_measurement_is_ignored demo ⟨none, none⟩ (core3 .VARIANCE [1/10, 9/10, 1/2])
    { sampleAt 1 0 with valid := false } ⟨"jackal"⟩ ⟨0, 0⟩ rfl⟩

/-- C7, as the code has it. A valid measurement, received with a non-zero
`model_update_rate_`, adds exactly `1` to the visit count stored under the reported location
multiplied by `map_scale_`, leaves the count of every other location unchanged, and adds
exactly `1` to the sample counter. -/
theorem C7_valid_measurement_counts_its_own_key (E : Collaborators G) (s : SamplingCore G)
    (msg : measurement) (hv : msg.valid = true) (hr : s.model_update_rate_ ≠ 0) :
    ∃ s', CollectSampleCallback E s msg = .ok s' ∧
      s'.sample_count_ (ledgerKey s msg) = s.sample_count_ (ledgerKey s msg) + 1 ∧
      (∀ k, k ≠ ledgerKey s msg → s'.sample_count_ k = s.sample_count_ k) ∧
      s'.sample_size_ = s.sample_size_ + 1 := by
  refine ⟨_, CollectSampleCallback_valid E s msg hv hr, ?_, ?_, rfl⟩
  · simp only [Function.update_same]
  · intro k hk
    simp only [Function.update_noteq hk]

/-- The hypotheses of C7 hold for a valid report at latitude `0.45` on the three-location
grid with map scale `2`, and so does its conclusion. -/
theorem C7_valid_measurement_counts_its_own_key_witness :
    (sampleAt (9/20) 0).valid = true ∧ (core3 .UCB [1, 1, 1]).model_update_rate_ ≠ 0 ∧
    ∃ s', CollectSampleCallback demo (core3 .UCB [1, 1, 1]) (sampleAt (9/20) 0) = .ok s' ∧
      s'.sample_count_ (ledgerKey (core3 .UCB [1, 1, 1]) (sampleAt (9/20) 0)) =
        (core3 .UCB [1, 1, 1]).sample_count_
          (ledgerKey (core3 .UCB [1, 1, 1]) (sampleAt (9/20) 0)) + 1 ∧
      (∀ k, k ≠ ledgerKey (core3 .UCB [1, 1, 1]) (sampleAt (9/20) 0) →
        s'.sample_count_ k = (core3 .UCB [1, 1, 1]).sample_count_ k) ∧
      s'.sample_size_ = (core3 .UCB [1, 1, 1]).sample_size_ + 1 :=
  ⟨rfl, by simp [core3],
    C7_valid_measurement_counts_its_own_key demo (core3 .UCB [1, 1, 1]) (sampleAt (9/20) 0) rfl
      (by simp [core3])⟩

theorem core3_counts (mode : HeuristicMode) (variance : List double) (k : Row) :
    (k ∈ (core3 mode variance).location_ → (core3 mode variance).sample_count_ k = 1) ∧
    (k ∉ (core3 mode variance).location_ → (core3 mode variance).sample_count_ k = 0) :=
  initSampleCount_spec [(0, 0), (1, 0), (2, 0)] (fun _ => 0) k

/-- A valid report at latitude `0.45`, longitude `0` on the grid `(0,0), (1,0), (2,0)` with
map scale `2` is rescaled to `(0.9, 0)`, whose nearest grid location is `(1, 0)`.  The call
succeeds and counts the sample, yet the visit count of every grid location, the nearest one
included, is what it was; the increment went to the off-grid key `(0.9, 0)`. -/
theorem C7_nearest_index_counterexample :
    ∃ s', CollectSampleCallback demo (core3 .UCB [1, 1, 1]) (sampleAt (9/20) 0) = .ok s' ∧
      s'.sample_size_ = (core3 .UCB [1, 1, 1]).sample_size_ + 1 ∧
      ledgerKey (core3 .UCB [1, 1, 1]) (sampleAt (9/20) 0) = (9/10, 0) ∧
      (∀ k ∈ (core3 .UCB [1, 1, 1]).location_,
        s'.sample_count_ k = (core3 .UCB [1, 1, 1]).sample_count_ k) ∧
      (∀ k ∈ (core3 .UCB [1, 1, 1]).location_, sqDist (9/10, 0) (1, 0) ≤ sqDist (9/10, 0) k) ∧
      s'.sample_count_ (1, 0) = 1 ∧ (core3 .UCB [1, 1, 1]).sample_count_ (1, 0) = 1 ∧
      s'.sample_count_ (9/10, 0) = (core3 .UCB [1, 1, 1]).sample_count_ (9/10, 0) + 1 := by
  have hkey : ledgerKey (core3 .UCB [1, 1, 1]) (sampleAt (9/20) 0) = (9/10, 0) := by
    norm_num [ledgerKey, core3, sampleAt]
  have hgrid : ∀ k ∈ (core3 .UCB [1, 1, 1]).location_, k ≠ ((9/10, 0) : Row) := by
    intro k hk h
    have h1 := congrArg Prod.fst h
    simp only [core3, List.mem_cons, List.mem_singleton, List.not_mem_nil, or_false] at hk
    rcases hk with rfl | rfl | rfl <;> norm_num at h1
  have h10 : (core3 .UCB [1, 1, 1]).sample_count_ (1, 0) = 1 :=
    (core3_counts .UCB [1, 1, 1] (1, 0)).1 (by simp [core3])
  have hres := CollectSampleCallback_valid demo (core3 .UCB [1, 1, 1]) (sampleAt (9/20) 0) rfl
    (by simp [core3])
  rw [hkey] at hres
  refine ⟨_, hres, rfl, hkey, ?_, ?_, ?_, h10, ?_⟩
  · intro k hk
    exact Function.update_noteq (hgrid k hk) _ _
  · intro k hk
    simp only [core3, List.mem_cons, List.mem_singleton, List.not_mem_nil, or_false] at hk
    rcases hk with rfl | rfl | rfl <;> norm_num [sqDist]
  · have hne : ((1, 0) : Row) ≠ (9/10, 0) := hgrid _ (by simp [core3])
    exact (Function.update_noteq hne _ _).trans h10
  · exact Function.update_same _ _ _

/-! ## The retrain throttle -/

theorem Update_effect (E : Collaborators G) (gps : GPS) (s s' : SamplingCore G)
    (h : Update E gps s = .ok s') :
    s'.calls_ = s.calls_ ++ (if s.update_flag_ = true then updateCalls else []) ∧
    s'.update_flag_ = false ∧ s'.sample_size_ = s.sample_size_ ∧
    s'.model_update_rate_ = s.model_update_rate_ ∧
    s'.heuristic_mode_ = s.heuristic_mode_ ∧ s'.location_ = s.location_ := by
  unfold Update at h
  split at h
  · next hflag =>
    obtain ⟨pq, pqv, rfl⟩ := UpdateHeuristic_frame E gps _ s' h
    simp [hflag, UpdateVisualization, UpdateGPModel, updateCalls]
  · next hflag =>
    simp only [pure, Except.pure] at h
    injection h with h
    subst h
    simp [hflag]

theorem Update_global_ok (E : Collaborators G) (gps : GPS) (s : SamplingCore G)
    (hm : s.heuristic_mode_ = .VARIANCE ∨ s.heuristic_mode_ = .UCB)
    (hE : PredictsEveryLocation E) : ∃ s', Update E gps s = .ok s' := by
  unfold Update
  split
  · obtain ⟨h1, h2⟩ := hE (E.ExpectationAndMaximization s.gp_node_) s.location_
    obtain ⟨score, hs⟩ := UpdateHeuristic_global E gps
      (UpdateVisualization (UpdateGPModel E { s with update_flag_ := false }))
      hm (fun _ => h1) h2
    exact ⟨_, hs⟩
  · exact ⟨s, rfl⟩

theorem run_append (E : Collaborators G) (a b : List Op) (s : SamplingCore G) :
    run E (a ++ b) s = run E a s >>= run E b := by
  induction a generalizing s with
  | nil => rfl
  | cons op a ih =>
    simp only [List.cons_append, run, bind, Except.bind]
    cases step E s op with
    | error e => rfl
    | ok s1 => exact ih s1

theorem round_effect (E : Collaborators G) (c : measurement × GPS) (s s' : SamplingCore G)
    (hf : s.update_flag_ = false) (hr : s.model_update_rate_ ≠ 0)
    (h : run E (sampleRounds [c]) s = .ok s') :
    s'.update_flag_ = false ∧ s'.model_update_rate_ = s.model_update_rate_ ∧
    s'.heuristic_mode_ = s.heuristic_mode_ ∧
    s'.sample_size_ = s.sample_size_ + (if c.1.valid = true then 1 else 0) ∧
    s'.calls_ = s.calls_ ++
      (if c.1.valid = true ∧ (s.sample_size_ + 1) % s.model_update_rate_ = 0
        then updateCalls else []) := by
  simp only [sampleRounds, run, step, bind, Except.bind, pure, Except.pure] at h
  cases hv : c.1.valid with
  | false =>
    rw [CollectSampleCallback_invalid E s c.1 hv] at h
    simp only at h
    split at h
    · exact absurd h (by simp)
    · next s1 hs1 =>
      injection h with h
      subst h
      obtain ⟨h1, h2, h3, h4, h5, _⟩ := Update_effect E c.2 s s1 hs1
      simp [h1, h2, h3, h4, h5, hf]
  | true =>
    rw [CollectSampleCallback_valid E s c.1 hv hr] at h
    simp only at h
    split at h
    · exact absurd h (by simp)
    · next s1 hs1 =>
      injection h with h
      subst h
      obtain ⟨h1, h2, h3, h4, h5, _⟩ := Update_effect E c.2 _ s1 hs1
      simp only at h1 h3 h4 h5
      refine ⟨h2, h4, h5, by simp [h3], ?_⟩
      rw [h1]
      simp [hf]

theorem rounds_invariant (E : Collaborators G) (cs : List (measurement × GPS)) :
    ∀ (s s' : SamplingCore G), s.update_flag_ = false → s.model_update_rate_ ≠ 0 →
      run E (sampleRounds cs) s = .ok s' →
      s'.update_flag_ = false ∧ s'.model_update_rate_ = s.model_update_rate_ ∧
      s'.heuristic_mode_ = s.heuristic_mode_ ∧
      s'.sample_size_ = s.sample_size_ + validCount cs := by
  induction cs with
  | nil =>
    intro s s' hf _ h
    simp only [sampleRounds, run, pure, Except.pure] at h
    injection h with h
    subst h
    exact ⟨hf, rfl, rfl, by simp [validCount]⟩
  | cons c cs ih =>
    intro s s' hf hr h
    have hsplit : sampleRounds (c :: cs) = sampleRounds [c] ++ sampleRounds cs := rfl
    rw [hsplit, run_append] at h
    simp only [bind, Except.bind] at h
    split at h
    · exact absurd h (by simp)
    · next s1 hs1 =>
      obtain ⟨a1, a2, a3, a4, _⟩ := round_effect E c s s1 hf hr hs1
      obtain ⟨b1, b2, b3, b4⟩ := ih s1 s' a1 (a2 ▸ hr) h
      refine ⟨b1, b2.trans a2, b3.trans a3, ?_⟩
      rw [b4, a4]
      cases hv : c.1.valid <;> simp [validCount, List.filter_cons, hv]; omega

theorem rounds_global_ok (E : Collaborators G) (hE : PredictsEveryLocation E)
    (cs : List (measurement × GPS)) :
    ∀ s : SamplingCore G, (s.heuristic_mode_ = .VARIANCE ∨ s.heuristic_mode_ = .UCB) →
      s.update_flag_ = false → s.model_update_rate_ ≠ 0 →
      ∃ s', run E (sampleRounds cs) s = .ok s' := by
  induction cs with
  | nil => intro s _ _ _; exact ⟨s, rfl⟩
  | cons c cs ih =>
    intro s hm hf hr
    have hround : ∃ s1, run E (sampleRounds [c]) s = .ok s1 := by
      simp only [sampleRounds, run, step, bind, Except.bind, pure, Except.pure]
      cases hv : c.1.valid with
      | false =>
        rw [CollectSampleCallback_invalid E s c.1 hv]
        obtain ⟨s1, hs1⟩ := Update_global_ok E c.2 s hm hE
        exact ⟨s1, by simp [hs1]⟩
      | true =>
        rw [CollectSampleCallback_valid E s c.1 hv hr]
        obtain ⟨s1, hs1⟩ := Update_global_ok E c.2
          { s with sample_size_ := s.sample_size_ + 1,
                   update_flag_ :=
                     decide ((s.sample_size_ + 1) % s.model_update_rate_ = 0) || s.update_flag_,
                   sample_count_ := Function.update s.sample_count_ (ledgerKey s c.1)
                     (s.sample_count_ (ledgerKey s c.1) + 1),
                   gp_node_ := E.AddTrainingData s.gp_node_ (ledgerKey s c.1) c.1.measurement }
          hm hE
        exact ⟨s1, by simp only [hs1]⟩
    obtain ⟨s1, hs1⟩ := hround
    obtain ⟨a1, a2, a3, _, _⟩ := round_effect E c s s1 hf hr hs1
    obtain ⟨s', hs'⟩ := ih s1 (a3 ▸ hm) a1 (a2 ▸ hr)
    refine ⟨s', ?_⟩
    have hsplit : sampleRounds (c :: cs) = sampleRounds [c] ++ sampleRounds cs := rfl
    rw [hsplit, run_append, hs1]
    exact hs'

/-- C8. Let `model_update_rate_` be `r >= 1`, the sample counter `0` and the update flag
clear, and let `Update` run after every measurement.  Whenever the rounds for the messages
`cs` have run and the round of one more valid message runs, that round makes exactly one
`UpdateGPModel` call and one `UpdateHeuristic` call if the number of valid messages so far,
this one included, is a multiple of `r`, and makes none otherwise; the flag is clear again
afterwards.  In VARIANCE and UCB modes, with a mixture that predicts for every location,
all these rounds do run to completion. -/
theorem C8_retrain_every_rth_sample (E : Collaborators G) (s0 : SamplingCore G)
    (cs : List (measurement × GPS)) (c : measurement × GPS) (r : Nat)
    (hr : 1 ≤ r) (hrate : s0.model_update_rate_ = r) (h0 : s0.sample_size_ = 0)
    (hf : s0.update_flag_ = false) (hc : c.1.valid = true) :
    (∀ s s', run E (sampleRounds cs) s0 = .ok s → run E (sampleRounds [c]) s = .ok s' →
      s'.calls_ = s.calls_ ++ (if r ∣ validCount cs + 1 then updateCalls else []) ∧
      s'.update_flag_ = false) ∧
    ((s0.heuristic_mode_ = .VARIANCE ∨ s0.heuristic_mode_ = .UCB) →
      PredictsEveryLocation E →
      ∃ s s', run E (sampleRounds cs) s0 = .ok s ∧ run E (sampleRounds [c]) s = .ok s') := by
  have hr0 : s0.model_update_rate_ ≠ 0 := by omega
  constructor
  · intro s s' hs hs'
    obtain ⟨a1, a2, _, a4⟩ := rounds_invariant E cs s0 s hf hr0 hs
    obtain ⟨b1, _, _, _, b5⟩ := round_effect E c s s' a1 (a2 ▸ hr0) hs'
    refine ⟨?_, b1⟩
    rw [b5, a4, a2, h0, hrate, Nat.zero_add]
    simp only [hc, true_and, Nat.dvd_iff_mod_eq_zero]
  · intro hm hE
    obtain ⟨s, hs⟩ := rounds_global_ok E hE cs s0 hm hf hr0
    obtain ⟨a1, a2, a3, _⟩ := rounds_invariant E cs s0 s hf hr0 hs
    obtain ⟨s', hs'⟩ := rounds_global_ok E hE [c] s (a3 ▸ hm) a1 (a2 ▸ hr0)
    exact ⟨s, s', hs, hs'⟩

theorem demo_predicts_every_location : PredictsEveryLocation demo := by
  intro g location
  simp [demo]

/-- Scenario E: with `model_update_rate_ = 5` the hypotheses of C8 hold for four valid
samples followed by a fifth, its conclusion holds, and on the run itself the first four
rounds record no call while the fifth records exactly one retrain, one redraw and one
rebuild. -/
theorem C8_retrain_every_rth_sample_witness :
    1 ≤ 5 ∧ (core3 .VARIANCE [1/10, 9/10, 1/2]).model_update_rate_ = 5 ∧
    (core3 .VARIANCE [1/10, 9/10, 1/2]).sample_size_ = 0 ∧
    (core3 .VARIANCE [1/10, 9/10, 1/2]).update_flag_ = false ∧
    (sampleAt 1 0).valid = true ∧
    ((∀ s s', run demo (sampleRounds fourRounds) (core3 .VARIANCE [1/10, 9/10, 1/2]) = .ok s →
        run demo (sampleRounds [(sampleAt 1 0, ⟨none, none⟩)]) s = .ok s' →
        s'.calls_ = s.calls_ ++ (if 5 ∣ validCount fourRounds + 1 then updateCalls else []) ∧
        s'.update_flag_ = false) ∧
      (((core3 .VARIANCE [1/10, 9/10, 1/2]).heuristic_mode_ = .VARIANCE ∨
          (core3 .VARIANCE [1/10, 9/10, 1/2]).heuristic_mode_ = .UCB) →
        PredictsEveryLocation demo →
        ∃ s s', run demo (sampleRounds fourRounds) (core3 .VARIANCE [1/10, 9/10, 1/2]) = .ok s ∧
          run demo (sampleRounds [(sampleAt 1 0, ⟨none, none⟩)]) s = .ok s')) ∧
    (∃ s s', run demo (sampleRounds fourRounds) (core3 .VARIANCE [1/10, 9/10, 1/2]) = .ok s ∧
      s.calls_ = [] ∧ s.sample_size_ = 4 ∧
      run demo (sampleRounds [(sampleAt 1 0, ⟨none, none⟩)]) s = .ok s' ∧
      s'.calls_ = [Call.UpdateGPModel, Call.UpdateVisualization, Call.UpdateHeuristic]) := by
  have hthm := C8_retrain_every_rth_sample demo (core3 .VARIANCE [1/10, 9/10, 1/2]) fourRounds
    (sampleAt 1 0, ⟨none, none⟩) 5 (by norm_num) rfl rfl rfl rfl
  refine ⟨by norm_num, rfl, rfl, rfl, rfl, hthm, ?_⟩
  obtain ⟨s, s', hs, hs'⟩ := hthm.2 (Or.inl rfl) demo_predicts_every_location
  have hfour : ∃ x, run demo (sampleRounds fourRounds) (core3 .VARIANCE [1/10, 9/10, 1/2]) =
      .ok x ∧ x.calls_ = [] ∧ x.sample_size_ = 4 := ⟨_, rfl, rfl, rfl⟩
  obtain ⟨x, hx, hx1, hx2⟩ := hfour
  have hsx : s = x := by
    rw [hs] at hx
    injection hx
  subst hsx
  have hcalls := (hthm.1 s s' hs hs').1
  have hcount : validCount fourRounds + 1 = 5 := rfl
  rw [hx1, hcount, if_pos (dvd_refl 5)] at hcalls
  exact ⟨s, s', hs, hx1, hx2, hs', hcalls⟩

/-! ## DISTANCE_UCB mode: the rebuild -/

theorem UpdateHeuristic_gps_failure (E : Collaborators G) (gps : GPS)
    (s : SamplingCore G) (hm : s.heuristic_mode_ = .DISTANCE_UCB)
    (hgps : gps.Jackal = none ∨ gps.Pelican = none) :
    UpdateHeuristic E gps s = .ok
      { s with calls_ := s.calls_ ++ [Call.UpdateHeuristic], heuristic_pq_v_ := [] } := by
  cases s
  simp only at hm
  subst hm
  unfold UpdateHeuristic
  simp only
  cases hj : gps.Jackal with
  | none => rfl
  | some jackal =>
    cases hp : gps.Pelican with
    | none => rfl
    | some pelican =>
      rcases hgps with h | h
      · rw [hj] at h; exact absurd h (by simp)
      · rw [hp] at h; exact absurd h (by simp)

/-- C9, as the code has it. In DISTANCE_UCB mode, when the GPS query of either robot fails,
`UpdateHeuristic` returns with the container of per-robot queues empty: it was cleared
before the queries, so every entry queued before the call is gone and none is pushed.
Nothing else changes but the record of the call. -/
theorem C9_failed_gps_leaves_queues_cleared (E : Collaborators G) (gps : GPS)
    (s : SamplingCore G) (hm : s.heuristic_mode_ = .DISTANCE_UCB)
    (hgps : gps.Jackal = none ∨ gps.Pelican = none) :
    UpdateHeuristic E gps s = .ok
      { s with calls_ := s.calls_ ++ [Call.UpdateHeuristic], heuristic_pq_v_ := [] } :=
  UpdateHeuristic_gps_failure E gps s hm hgps

/-- The hypotheses of C9 hold for the coordinator with two queued entries when the Pelican
does not answer, and so does its conclusion. -/
theorem C9_failed_gps_leaves_queues_cleared_witness :
    core3Queued.heuristic_mode_ = .DISTANCE_UCB ∧
    ((⟨some (0, 0), none⟩ : GPS).Jackal = none ∨ (⟨some (0, 0), none⟩ : GPS).Pelican = none) ∧
    UpdateHeuristic demo ⟨some (0, 0), none⟩ core3Queued = .ok
      { core3Queued with calls_ := core3Queued.calls_ ++ [Call.UpdateHeuristic],
                         heuristic_pq_v_ := [] } :=
  ⟨rfl, Or.inr rfl,
    C9_failed_gps_leaves_queues_cleared demo ⟨some (0, 0), none⟩ core3Queued rfl (Or.inr rfl)⟩

/-- With grid index `0` queued for the Jackal and grid index `1` for the Pelican, a rebuild
during which the Jackal does not answer returns with no queue at all: the entries queued
before the call are not queued afterwards. -/
theorem C9_queues_kept_counterexample :
    core3Queued.heuristic_mode_ = .DISTANCE_UCB ∧
    core3Queued.heuristic_pq_v_ = [[(1, 0)], [(2, 1)]] ∧
    ∃ s', UpdateHeuristic demo ⟨none, some (2, 0)⟩ core3Queued = .ok s' ∧
      s'.heuristic_pq_v_ = [] ∧ s'.heuristic_pq_v_ ≠ core3Queued.heuristic_pq_v_ :=
  ⟨rfl, rfl, _, UpdateHeuristic_gps_failure demo ⟨none, some (2, 0)⟩ core3Queued rfl
    (Or.inl rfl), rfl, by simp [core3Queued]⟩

theorem pushAt_nil (i : Nat) (x : double × Nat) : pushAt [] i x = .error .queueIndex := rfl

theorem distance_score_fold_ok (E : Collaborators G) (s : SamplingCore G)
    (point_location : Row) (label : List Nat) (h : ∀ i ∈ label, Scorable s i) (q0 : double) :
    ∃ q, label.foldlM (fun q index => do
      let cb ← confidence_bound E s index
      let loc ← row s.location_ index
      pure (q + E.L2Distance point_location loc * cb)) q0 = .ok q := by
  induction label generalizing q0 with
  | nil => exact ⟨q0, rfl⟩
  | cons i label ih =>
    obtain ⟨h1, h2, h3⟩ := h i (List.mem_cons_self i label)
    simp only [List.foldlM_cons, confidence_bound_ok E s i h1 h2 h3, row_ok _ _ h1, bind,
      Except.bind, pure, Except.pure]
    exact ih (fun j hj => h j (List.mem_cons_of_mem i hj)) _

theorem distanceScore_ok (E : Collaborators G) (s : SamplingCore G) (label : List Nat)
    (point_location : Row) (h : ∀ i ∈ label, Scorable s i) :
    ∃ q, distanceScore E s label point_location = .ok q :=
  distance_score_fold_ok E s point_location label h 0

theorem fillAnchorQueue_no_queue (E : Collaborators G) (s : SamplingCore G) (i : Nat)
    (label : List Nat) (h : ∀ j ∈ label, Scorable s j) (hne : label ≠ []) :
    fillAnchorQueue E s i label [] = .error .queueIndex := by
  cases hl : label with
  | nil => exact absurd hl hne
  | cons l0 rest =>
    have hl0 : Scorable s l0 := h l0 (by rw [hl]; exact List.mem_cons_self l0 rest)
    obtain ⟨q, hq⟩ := distanceScore_ok E s label (s.location_.getD l0 (0, 0)) h
    rw [hl] at hq
    simp only [fillAnchorQueue, List.foldlM_cons, row_ok _ _ hl0.1, hq, pushAt_nil, bind,
      Except.bind]

theorem fill_labels_no_queue (E : Collaborators G) (s : SamplingCore G)
    (L : List (Nat × List Nat)) (h : ∀ il ∈ L, ∀ j ∈ il.2, Scorable s j)
    (hne : ∃ il ∈ L, il.2 ≠ []) :
    L.foldlM (fun v il => fillAnchorQueue E s il.1 il.2 v) [] = .error .queueIndex := by
  induction L with
  | nil =>
    obtain ⟨il, hil, _⟩ := hne
    exact absurd hil (List.not_mem_nil il)
  | cons il L ih =>
    by_cases hil : il.2 = []
    · have hrest : ∃ il' ∈ L, il'.2 ≠ [] := by
        obtain ⟨il', hmem, hne'⟩ := hne
        rcases List.mem_cons.mp hmem with rfl | hmem
        · exact absurd hil hne'
        · exact ⟨il', hmem, hne'⟩
      have hfill : fillAnchorQueue E s il.1 il.2 [] = .ok [] := by
        rw [hil]; rfl
      simp only [List.foldlM_cons, hfill, bind, Except.bind]
      exact ih (fun il' hmem => h il' (List.mem_cons_of_mem il hmem)) hrest
    · have hfill := fillAnchorQueue_no_queue E s il.1 il.2
        (h il (List.mem_cons_self il L)) hil
      simp only [List.foldlM_cons, hfill, bind, Except.bind]

/-- What a DISTANCE_UCB rebuild does when both robots answer and the partitioner gives some
anchor at least one grid index: the first `heuristic_pq_v_[i].push` finds the container
empty, as `clear()` left it. -/
theorem UpdateHeuristic_distance_ucb_fault (E : Collaborators G) (gps : GPS)
    (s : SamplingCore G) (jackal pelican : Row)
    (hm : s.heuristic_mode_ = .DISTANCE_UCB)
    (hj : gps.Jackal = some jackal) (hp : gps.Pelican = some pelican)
    (hrange : ∀ label ∈ E.UpdateVoronoiMap s.location_ [jackal, pelican]
      s.distance_scale_factor_, ∀ j ∈ label, Scorable s j)
    (hne : ∃ label ∈ E.UpdateVoronoiMap s.location_ [jackal, pelican]
      s.distance_scale_factor_, label ≠ []) :
    UpdateHeuristic E gps s = .error .queueIndex := by
  have hfill := fill_labels_no_queue E
    { s with calls_ := s.calls_ ++ [Call.UpdateHeuristic], heuristic_pq_v_ := [] }
    (E.UpdateVoronoiMap s.location_ [jackal, pelican] s.distance_scale_factor_).enum
    (fun il hil j hj' => hrange il.2 (List.snd_mem_of_mem_enum hil) j hj')
    (by
      obtain ⟨label, hmem, hne'⟩ := hne
      rw [← List.enum_map_snd (E.UpdateVoronoiMap s.location_ [jackal, pelican]
        s.distance_scale_factor_)] at hmem
      obtain ⟨il, hil, rfl⟩ := List.mem_map.mp hmem
      exact ⟨il, hil, hne'⟩)
  cases s
  simp only at hm hfill
  subst hm
  unfold UpdateHeuristic
  simp only [hj, hp, bind, Except.bind]
  rw [hfill]

/-- C10 on the code. Three grid locations, both robots answering, the Jackal on the grid
and the Pelican far away, so that every grid index belongs to anchor `0`: the rebuild does
not leave one queue per anchor, it stops at the first `heuristic_pq_v_[0].push`, which
indexes a container of size `0`. -/
theorem C10_queue_filled_out_of_bounds :
    (core3 .DISTANCE_UCB [1, 1, 1]).heuristic_mode_ = .DISTANCE_UCB ∧
    demo.UpdateVoronoiMap (core3 .DISTANCE_UCB [1, 1, 1]).location_ [(0, 0), (100, 100)]
      (core3 .DISTANCE_UCB [1, 1, 1]).distance_scale_factor_ = [[0, 1, 2], []] ∧
    UpdateHeuristic demo ⟨some (0, 0), some (100, 100)⟩ (core3 .DISTANCE_UCB [1, 1, 1]) =
      .error .queueIndex := by
  have hlabels : demo.UpdateVoronoiMap (core3 .DISTANCE_UCB [1, 1, 1]).location_
      [(0, 0), (100, 100)] (core3 .DISTANCE_UCB [1, 1, 1]).distance_scale_factor_ =
      [[0, 1, 2], []] := rfl
  refine ⟨rfl, hlabels, ?_⟩
  apply UpdateHeuristic_distance_ucb_fault demo _ _ (0, 0) (100, 100) rfl rfl rfl
  · intro label hlabel j hj
    rw [hlabels] at hlabel
    simp only [List.mem_cons, List.mem_singleton, List.not_mem_nil, or_false] at hlabel
    rcases hlabel with rfl | rfl
    · simp only [List.mem_cons, List.mem_singleton, List.not_mem_nil, or_false] at hj
      rcases hj with rfl | rfl | rfl <;> simp [Scorable, core3]
    · exact absurd hj (List.not_mem_nil j)
  · exact ⟨[0, 1, 2], by rw [hlabels]; simp, by simp⟩

/-! ## VARIANCE and UCB modes: when a request fails -/

theorem serveGlobal_cons (s : SamplingCore G) (e : double × Nat) (q : PriorityQueue)
    (hq : s.heuristic_pq_ = e :: q) (h : e.2 < s.location_.length) :
    serveGlobal s = .ok
      { ret := true, res := responseAt s e.2, index := some e.2,
        state := { s with heuristic_pq_ := q } } := by
  simp [serveGlobal, hq, dispense_cons s e q h, bind, Except.bind, pure, Except.pure]

theorem forcedRebuild_global (E : Collaborators G) (gps : GPS) (s : SamplingCore G)
    (hm : s.heuristic_mode_ = .VARIANCE ∨ s.heuristic_mode_ = .UCB)
    (hE : PredictsEveryLocation E) :
    ∃ (score : Nat → double) (s1 : SamplingCore G), forcedRebuild E gps s = .ok s1 ∧
      s1.heuristic_pq_ = pushAll score (List.range s.location_.length) [] ∧
      s1.location_ = s.location_ := by
  obtain ⟨h1, h2⟩ := hE s.gp_node_ s.location_
  obtain ⟨score, hs⟩ := UpdateHeuristic_global E gps
    { s with gp_node_ := (E.GaussianProcessMixturePredict s.gp_node_ s.location_).1,
             mean_prediction_ := (E.GaussianProcessMixturePredict s.gp_node_ s.location_).2.1,
             var_prediction_ := (E.GaussianProcessMixturePredict s.gp_node_ s.location_).2.2 }
    hm (fun _ => h1) h2
  exact ⟨score, _, hs, rfl, rfl⟩

theorem assignGlobal_empty (E : Collaborators G) (gps : GPS) (s s1 : SamplingCore G)
    (res : Response) (hq : s.heuristic_pq_ = []) (h1 : forcedRebuild E gps s = .ok s1) :
    assignGlobal E gps s res =
      if s1.heuristic_pq_.empty = true then
        .ok { ret := false, res := res, index := none, state := s1 }
      else serveGlobal s1 := by
  simp only [assignGlobal, hq, PriorityQueue.empty, List.isEmpty_nil, if_true, h1, bind,
    Except.bind, pure, Except.pure]

/-- C11. In VARIANCE and UCB modes, with a mixture that predicts for every location and a
queue whose entries are grid indices, `AssignInterestPoint` returns; it returns false
exactly when the queue is empty on entry and the forced rebuild, which itself completes,
leaves it empty, and that is exactly when the grid has no location.  On a non-empty grid
it returns true and pops exactly one entry: the top of the queue found on entry, or of the
rebuilt queue when that one was empty. -/
theorem C11_request_fails_only_on_empty_grid (E : Collaborators G) (gps : GPS)
    (s : SamplingCore G) (req : Request) (res : Response)
    (hm : s.heuristic_mode_ = .VARIANCE ∨ s.heuristic_mode_ = .UCB)
    (hE : PredictsEveryLocation E)
    (hinv : ∀ e ∈ s.heuristic_pq_, e.2 < s.location_.length) :
    ∃ (a : Assigned G) (s1 : SamplingCore G),
      AssignInterestPoint E gps s req res = .ok a ∧ forcedRebuild E gps s = .ok s1 ∧
      (a.ret = false ↔ s.heuristic_pq_ = [] ∧ s1.heuristic_pq_ = []) ∧
      (a.ret = false ↔ s.location_ = []) ∧
      (s.location_ ≠ [] → a.ret = true ∧ ∃ e : double × Nat, a.index = some e.2 ∧
        (s.heuristic_pq_ ≠ [] → s.heuristic_pq_ = e :: a.state.heuristic_pq_) ∧
        (s.heuristic_pq_ = [] → s1.heuristic_pq_ = e :: a.state.heuristic_pq_)) := by
  obtain ⟨score, s1, h1, hq1, hl1⟩ := forcedRebuild_global E gps s hm hE
  have hlen1 : s1.heuristic_pq_.length = s.location_.length := by
    rw [hq1]; exact pushAll_range_length score _
  rw [AssignInterestPoint_global E gps s req res hm]
  cases hq : s.heuristic_pq_ with
  | cons e q =>
    have he : e.2 < s.location_.length := hinv e (by rw [hq]; exact List.mem_cons_self e q)
    have hne : s.location_ ≠ [] := by
      intro h0; rw [h0] at he; exact absurd he (Nat.not_lt_zero _)
    refine ⟨_, s1, assignGlobal_cons E gps s res e q hq he, h1, ?_, ?_, ?_⟩
    · simp
    · simp [hne]
    · intro _
      exact ⟨rfl, e, rfl, fun _ => rfl, fun h => absurd h (by simp)⟩
  | nil =>
    have hassign := assignGlobal_empty E gps s s1 res hq h1
    cases hq1' : s1.heuristic_pq_ with
    | nil =>
      have hN : s.location_ = [] := by
        rw [hq1'] at hlen1
        exact List.length_eq_zero.mp hlen1.symm
      rw [hq1'] at hassign
      simp only [PriorityQueue.empty, List.isEmpty_nil, if_true] at hassign
      refine ⟨_, s1, hassign, h1, ?_, ?_, ?_⟩
      · simp [hq1']
      · simp [hN]
      · intro hne; exact absurd hN hne
    | cons e q =>
      have hmem : e ∈ pushAll score (List.range s.location_.length) [] := by
        rw [← hq1, hq1']; exact List.mem_cons_self e q
      have he : e.2 < s1.location_.length := by
        rw [hl1]; exact (pushAll_range_mem score _ e hmem).2
      have hne : s.location_ ≠ [] := by
        intro h0
        rw [hl1, h0] at he
        exact absurd he (Nat.not_lt_zero _)
      have hserve := serveGlobal_cons s1 e q hq1' he
      rw [hq1'] at hassign
      simp only [PriorityQueue.empty, List.isEmpty_cons, Bool.false_eq_true, if_false]
        at hassign
      rw [hserve] at hassign
      refine ⟨_, s1, hassign, h1, ?_, ?_, ?_⟩
      · simp [hq1']
      · simp [hne]
      · intro _
        exact ⟨rfl, e, rfl, fun h => absurd rfl h, fun _ => hq1'⟩

/-- The hypotheses of C11 hold for a first request on the three-location grid in VARIANCE
mode and so does its conclusion; applied to the same coordinator without grid, C11 gives a
request that returns false. -/
theorem C11_request_fails_only_on_empty_grid_witness :
    ((core3 .VARIANCE [1/10, 9/10, 1/2]).heuristic_mode_ = .VARIANCE ∨
      (core3 .VARIANCE [1/10, 9/10, 1/2]).heuristic_mode_ = .UCB) ∧
    PredictsEveryLocation demo ∧
    (∀ e ∈ (core3 .VARIANCE [1/10, 9/10, 1/2]).heuristic_pq_,
      e.2 < (core3 .VARIANCE [1/10, 9/10, 1/2]).location_.length) ∧
    (∃ (a : Assigned (List (Row × double))) (s1 : SamplingCore (List (Row × double))),
      AssignInterestPoint demo ⟨none, none⟩ (core3 .VARIANCE [1/10, 9/10, 1/2]) ⟨"jackal"⟩
        ⟨0, 0⟩ = .ok a ∧
      forcedRebuild demo ⟨none, none⟩ (core3 .VARIANCE [1/10, 9/10, 1/2]) = .ok s1 ∧
      (a.ret = false ↔
        (core3 .VARIANCE [1/10, 9/10, 1/2]).heuristic_pq_ = [] ∧ s1.heuristic_pq_ = []) ∧
      (a.ret = false ↔ (core3 .VARIANCE [1/10, 9/10, 1/2]).location_ = []) ∧
      ((core3 .VARIANCE [1/10, 9/10, 1/2]).location_ ≠ [] →
        a.ret = true ∧ ∃ e : double × Nat, a.index = some e.2 ∧
          ((core3 .VARIANCE [1/10, 9/10, 1/2]).heuristic_pq_ ≠ [] →
            (core3 .VARIANCE [1/10, 9/10, 1/2]).heuristic_pq_ = e :: a.state.heuristic_pq_) ∧
          ((core3 .VARIANCE [1/10, 9/10, 1/2]).heuristic_pq_ = [] →
            s1.heuristic_pq_ = e :: a.state.heuristic_pq_))) ∧
    (∃ a, AssignInterestPoint demo ⟨none, none⟩ (core0 .VARIANCE) ⟨"jackal"⟩ ⟨0, 0⟩ = .ok a ∧
      a.ret = false) := by
  have hinv : ∀ (mode : HeuristicMode) (v : List double), ∀ e ∈ (core3 mode v).heuristic_pq_,
      e.2 < (core3 mode v).location_.length := by
    intro mode v e he
    exact absurd he (List.not_mem_nil e)
  refine ⟨Or.inl rfl, demo_predicts_every_location, hinv _ _,
    C11_request_fails_only_on_empty_grid demo ⟨none, none⟩ (core3 .VARIANCE [1/10, 9/10, 1/2])
      ⟨"jackal"⟩ ⟨0, 0⟩ (Or.inl rfl) demo_predicts_every_location (hinv _ _), ?_⟩
  obtain ⟨a, _, ha, _, _, hgrid, _⟩ :=
    C11_request_fails_only_on_empty_grid demo ⟨none, none⟩ (core0 .VARIANCE) ⟨"jackal"⟩ ⟨0, 0⟩
      (Or.inl rfl) demo_predicts_every_location
      (fun e he => absurd he (List.not_mem_nil e))
  exact ⟨a, ha, hgrid.mpr rfl⟩

/-! ## UCB mode: the score -/

theorem getElem?_eq_some_getD {α : Type} (l : List α) (i : Nat) (d : α) (h : i < l.length) :
    l[i]? = some (l.getD i d) := by
  simp [List.getD, List.getElem?_eq_getElem h]

theorem ucbAt_reads (E : Collaborators G) (s : SamplingCore G) (i : Nat)
    (hl : i < s.location_.length) (hm : i < s.mean_prediction_.length)
    (hv : i < s.var_prediction_.length) :
    ∃ m v loc, s.mean_prediction_[i]? = some m ∧ s.var_prediction_[i]? = some v ∧
      s.location_[i]? = some loc ∧
      ucbAt E s i = m + s.variance_coeff_ / E.sqrt (s.sample_count_ loc) * v :=
  ⟨_, _, _, getElem?_eq_some_getD _ i 0 hm, getElem?_eq_some_getD _ i 0 hv,
    getElem?_eq_some_getD _ i (0, 0) hl, rfl⟩

/-- C12. In UCB mode, with a prediction field holding one mean and one variance per grid
location, `UpdateHeuristic` succeeds and queues `N` entries: for every grid index `i` the
entry `(mean[i] + c / sqrt(count) * variance[i], i)`, where `c` is `variance_coeff_` and
`count` is what the ledger `sample_count_` stores for the grid location `location_[i]`; and
every queued entry is of that form. -/
theorem C12_ucb_score_formula (E : Collaborators G) (gps : GPS) (s : SamplingCore G)
    (hm : s.heuristic_mode_ = .UCB)
    (hmean : s.mean_prediction_.length = s.location_.length)
    (hvar : s.var_prediction_.length = s.location_.length) :
    ∃ s1, UpdateHeuristic E gps s = .ok s1 ∧
      s1.heuristic_pq_.length = s.location_.length ∧
      (∀ i, i < s.location_.length → ∃ m v loc, s.mean_prediction_[i]? = some m ∧
        s.var_prediction_[i]? = some v ∧ s.location_[i]? = some loc ∧
        (m + s.variance_coeff_ / E.sqrt (s.sample_count_ loc) * v, i) ∈ s1.heuristic_pq_) ∧
      (∀ e ∈ s1.heuristic_pq_, ∃ m v loc, s.mean_prediction_[e.2]? = some m ∧
        s.var_prediction_[e.2]? = some v ∧ s.location_[e.2]? = some loc ∧
        e.1 = m + s.variance_coeff_ / E.sqrt (s.sample_count_ loc) * v) := by
  refine ⟨_, UpdateHeuristic_ucb E gps s hm (le_of_eq hmean.symm) (le_of_eq hvar.symm),
    pushAll_range_length _ _, ?_, ?_⟩
  · intro i hi
    obtain ⟨m, v, loc, h1, h2, h3, h4⟩ :=
      ucbAt_reads E s i hi (hmean ▸ hi) (hvar ▸ hi)
    refine ⟨m, v, loc, h1, h2, h3, ?_⟩
    rw [← h4]
    exact (pushAll_range_perm (ucbAt E s) s.location_.length).symm.subset
      (List.mem_map.mpr ⟨i, List.mem_range.mpr hi, rfl⟩)
  · intro e he
    obtain ⟨hscore, hidx⟩ := pushAll_range_mem (ucbAt E s) s.location_.length e he
    obtain ⟨m, v, loc, h1, h2, h3, h4⟩ :=
      ucbAt_reads E s e.2 hidx (hmean ▸ hidx) (hvar ▸ hidx)
    exact ⟨m, v, loc, h1, h2, h3, hscore.trans h4⟩

/-- The hypotheses of C12 hold for scenario C on the three-location grid, and so does its
conclusion. -/
theorem C12_ucb_score_formula_witness :
    (core3 .UCB [1, 1, 1]).heuristic_mode_ = .UCB ∧
    (core3 .UCB [1, 1, 1]).mean_prediction_.length = (core3 .UCB [1, 1, 1]).location_.length ∧
    (core3 .UCB [1, 1, 1]).var_prediction_.length = (core3 .UCB [1, 1, 1]).location_.length ∧
    ∃ s1, UpdateHeuristic demo ⟨none, none⟩ (core3 .UCB [1, 1, 1]) = .ok s1 ∧
      s1.heuristic_pq_.length = (core3 .UCB [1, 1, 1]).location_.length ∧
      (∀ i, i < (core3 .UCB [1, 1, 1]).location_.length →
        ∃ m v loc, (core3 .UCB [1, 1, 1]).mean_prediction_[i]? = some m ∧
          (core3 .UCB [1, 1, 1]).var_prediction_[i]? = some v ∧
          (core3 .UCB [1, 1, 1]).location_[i]? = some loc ∧
          (m + (core3 .UCB [1, 1, 1]).variance_coeff_ /
              demo.sqrt ((core3 .UCB [1, 1, 1]).sample_count_ loc) * v, i) ∈
            s1.heuristic_pq_) ∧
      (∀ e ∈ s1.heuristic_pq_,
        ∃ m v loc, (core3 .UCB [1, 1, 1]).mean_prediction_[e.2]? = some m ∧
          (core3 .UCB [1, 1, 1]).var_prediction_[e.2]? = some v ∧
          (core3 .UCB [1, 1, 1]).location_[e.2]? = some loc ∧
          e.1 = m + (core3 .UCB [1, 1, 1]).variance_coeff_ /
            demo.sqrt ((core3 .UCB [1, 1, 1]).sample_count_ loc) * v) :=
  ⟨rfl, rfl, rfl, C12_ucb_score_formula demo ⟨none, none⟩ (core3 .UCB [1, 1, 1]) rfl rfl rfl⟩

/-! ## DISTANCE_UCB mode: the score -/

theorem distance_score_fold_sum (E : Collaborators G) (s : SamplingCore G)
    (point_location : Row) (label : List Nat) (h : ∀ i ∈ label, Scorable s i) (q0 : double) :
    label.foldlM (fun q index => do
      let cb ← confidence_bound E s index
      let loc ← row s.location_ index
      pure (q + E.L2Distance point_location loc * cb)) q0 =
    .ok (q0 + (label.map (fun k =>
      E.L2Distance point_location (s.location_.getD k (0, 0)) * ucbAt E s k)).sum) := by
  induction label generalizing q0 with
  | nil => simp [pure, Except.pure]
  | cons i label ih =>
    obtain ⟨h1, h2, h3⟩ := h i (List.mem_cons_self i label)
    simp only [List.foldlM_cons, confidence_bound_ok E s i h1 h2 h3, row_ok _ _ h1, bind,
      Except.bind, pure, Except.pure]
    have hrest := ih (fun j hj => h j (List.mem_cons_of_mem i hj))
      (q0 + E.L2Distance point_location (s.location_.getD i (0, 0)) * ucbAt E s i)
    simp only [bind, Except.bind, pure, Except.pure] at hrest
    rw [hrest, List.map_cons, List.sum_cons, add_assoc]

theorem distanceScore_eq_sum (E : Collaborators G) (s : SamplingCore G) (label : List Nat)
    (point_location : Row) (h : ∀ i ∈ label, Scorable s i) :
    distanceScore E s label point_location = .ok ((label.map (fun k =>
      E.L2Distance point_location (s.location_.getD k (0, 0)) * ucbAt E s k)).sum) := by
  have hsum := distance_score_fold_sum E s point_location label h 0
  rw [zero_add] at hsum
  exact hsum

theorem fill_queue_fold (E : Collaborators G) (s : SamplingCore G) (i : Nat)
    (label js : List Nat) (h : ∀ k ∈ label, Scorable s k) (hjs : ∀ j ∈ js, Scorable s j) :
    ∀ (v : List PriorityQueue) (q0 : PriorityQueue), v[i]? = some q0 →
      js.foldlM (fun v lij => do
        let point_location ← row s.location_ lij
        let q ← distanceScore E s label point_location
        pushAt v i (q, lij)) v =
      .ok (v.set i (pushAll (fun j => (label.map (fun k =>
        E.L2Distance (s.location_.getD j (0, 0)) (s.location_.getD k (0, 0)) *
          ucbAt E s k)).sum) js q0)) := by
  induction js with
  | nil =>
    intro v q0 hv
    have hset : v.set i q0 = v := by
      apply List.ext_getElem?
      intro n
      by_cases hn : i = n
      · subst hn
        rw [List.getElem?_set_self, hv]
        cases hlt : decide (i < v.length) with
        | true => simp [of_decide_eq_true hlt]
        | false =>
          have hge : ¬ i < v.length := of_decide_eq_false hlt
          rw [List.getElem?_eq_none (Nat.le_of_not_lt hge)] at hv
          exact absurd hv (by simp)
      · rw [List.getElem?_set_ne hn]
    simp only [List.foldlM_nil, pushAll, List.foldl_nil, hset, pure, Except.pure]
  | cons j js ih =>
    intro v q0 hv
    have hj : Scorable s j := hjs j (List.mem_cons_self j js)
    have hpush : pushAt v i ((label.map (fun k =>
        E.L2Distance (s.location_.getD j (0, 0)) (s.location_.getD k (0, 0)) *
          ucbAt E s k)).sum, j) = .ok (v.set i (PriorityQueue.push ((label.map (fun k =>
        E.L2Distance (s.location_.getD j (0, 0)) (s.location_.getD k (0, 0)) *
          ucbAt E s k)).sum, j) q0)) := by
      simp [pushAt, hv]
    simp only [List.foldlM_cons, bind, Except.bind]
    rw [row_ok _ _ hj.1]
    dsimp only
    rw [distanceScore_eq_sum E s label (s.location_.getD j (0, 0)) h]
    dsimp only
    rw [hpush]
    dsimp only
    have hlt : i < v.length := by
      by_contra hge
      rw [List.getElem?_eq_none (Nat.le_of_not_lt hge)] at hv
      exact absurd hv (by simp)
    have hrest := ih (fun j' hj' => hjs j' (List.mem_cons_of_mem j hj'))
      (v.set i (PriorityQueue.push ((label.map (fun k =>
        E.L2Distance (s.location_.getD j (0, 0)) (s.location_.getD k (0, 0)) *
          ucbAt E s k)).sum, j) q0)) _
      (by rw [List.getElem?_set_self]; simp [hlt])
    rw [List.set_set] at hrest
    simp only [bind, Except.bind] at hrest
    exact hrest

/-- C13. In the DISTANCE_UCB loops, for a label set `S` whose cells can all be scored, the
score computed for a cell `j` of `S` is the sum, over the cells `k` of `S` and of no other
set, of `L2Distance(location[j], location[k]) * (mean[k] + c / sqrt(count[k]) * variance[k])`,
with `count[k]` the ledger count of `location[k]`; and on a container that holds queue `i`
the loops push exactly the pairs of that score and `j`, for `j` through `S`, onto queue
`i`. -/
theorem C13_distance_score_sums_own_set (E : Collaborators G) (s : SamplingCore G) (i : Nat)
    (label : List Nat) (hlabel : ∀ k ∈ label, Scorable s k) :
    (∀ j ∈ label, ∃ locj, s.location_[j]? = some locj ∧
      distanceScore E s label locj = .ok ((label.map (fun k =>
        E.L2Distance locj (s.location_.getD k (0, 0)) *
          (s.mean_prediction_.getD k 0 +
            s.variance_coeff_ / E.sqrt (s.sample_count_ (s.location_.getD k (0, 0))) *
              s.var_prediction_.getD k 0))).sum)) ∧
    (∀ (v : List PriorityQueue) (q0 : PriorityQueue), v[i]? = some q0 →
      fillAnchorQueue E s i label v = .ok (v.set i (pushAll (fun j => (label.map (fun k =>
        E.L2Distance (s.location_.getD j (0, 0)) (s.location_.getD k (0, 0)) *
          (s.mean_prediction_.getD k 0 +
            s.variance_coeff_ / E.sqrt (s.sample_count_ (s.location_.getD k (0, 0))) *
              s.var_prediction_.getD k 0))).sum) label q0))) := by
  constructor
  · intro j hj
    exact ⟨_, getElem?_eq_some_getD _ j (0, 0) (hlabel j hj).1,
      distanceScore_eq_sum E s label _ hlabel⟩
  · intro v q0 hv
    exact fill_queue_fold E s i label label hlabel hlabel v q0 hv

/-- The hypothesis of C13 holds for the label set `[0, 1, 2]` of anchor `0` on the
three-location grid, and so does its conclusion. -/
theorem C13_distance_score_sums_own_set_witness :
    (∀ k ∈ [0, 1, 2], Scorable (core3 .DISTANCE_UCB [1, 1, 1]) k) ∧
    ((∀ j ∈ [0, 1, 2], ∃ locj, (core3 .DISTANCE_UCB [1, 1, 1]).location_[j]? = some locj ∧
      distanceScore demo (core3 .DISTANCE_UCB [1, 1, 1]) [0, 1, 2] locj =
        .ok (([0, 1, 2].map (fun k =>
          demo.L2Distance locj ((core3 .DISTANCE_UCB [1, 1, 1]).location_.getD k (0, 0)) *
            ((core3 .DISTANCE_UCB [1, 1, 1]).mean_prediction_.getD k 0 +
              (core3 .DISTANCE_UCB [1, 1, 1]).variance_coeff_ /
                demo.sqrt ((core3 .DISTANCE_UCB [1, 1, 1]).sample_count_
                  ((core3 .DISTANCE_UCB [1, 1, 1]).location_.getD k (0, 0))) *
                (core3 .DISTANCE_UCB [1, 1, 1]).var_prediction_.getD k 0))).sum)) ∧
    (∀ (v : List PriorityQueue) (q0 : PriorityQueue), v[0]? = some q0 →
      fillAnchorQueue demo (core3 .DISTANCE_UCB [1, 1, 1]) 0 [0, 1, 2] v =
        .ok (v.set 0 (pushAll (fun j => ([0, 1, 2].map (fun k =>
          demo.L2Distance ((core3 .DISTANCE_UCB [1, 1, 1]).location_.getD j (0, 0))
              ((core3 .DISTANCE_UCB [1, 1, 1]).location_.getD k (0, 0)) *
            ((core3 .DISTANCE_UCB [1, 1, 1]).mean_prediction_.getD k 0 +
              (core3 .DISTANCE_UCB [1, 1, 1]).variance_coeff_ /
                demo.sqrt ((core3 .DISTANCE_UCB [1, 1, 1]).sample_count_
                  ((core3 .DISTANCE_UCB [1, 1, 1]).location_.getD k (0, 0))) *
                (core3 .DISTANCE_UCB [1, 1, 1]).var_prediction_.getD k 0))).sum)
          [0, 1, 2] q0)))) := by
  have hlabel : ∀ k ∈ [0, 1, 2], Scorable (core3 .DISTANCE_UCB [1, 1, 1]) k := by
    intro k hk
    simp only [List.mem_cons, List.mem_singleton, List.not_mem_nil, or_false] at hk
    rcases hk with rfl | rfl | rfl <;> simp [Scorable, core3]
  exact ⟨hlabel, C13_distance_score_sums_own_set demo (core3 .DISTANCE_UCB [1, 1, 1]) 0
    [0, 1, 2] hlabel⟩

/-! ## Request and report: the round trip on the ledger key -/

theorem Served.of_untouched {s s1 : SamplingCore G} {a : Assigned G} (hu : Untouched s s1)
    (h : Served s1 a) : Served s a := by
  intro i hi
  obtain ⟨hret, loc, hloc, hres⟩ := h i hi
  exact ⟨hret, loc, by rw [← hu.1]; exact hloc, by rw [← hu.2.1]; exact hres⟩

theorem Served.of_none (s : SamplingCore G) (a : Assigned G) (h : a.index = none) :
    Served s a := by
  intro i hi
  rw [h] at hi
  exact absurd hi (by simp)

theorem dispense_reads (s : SamplingCore G) (q q' : PriorityQueue) (r : Response) (i : Nat)
    (h : dispense s q = .ok (r, i, q')) :
    ∃ loc, s.location_[i]? = some loc ∧
      r = { latitude := loc.1 / s.map_scale_, longitude := loc.2 / s.map_scale_ } := by
  unfold dispense at h
  split at h
  · exact absurd h (by simp)
  · next pair _ =>
    simp only [row, bind, Except.bind, pure, Except.pure] at h
    split at h
    · exact absurd h (by simp)
    · next loc hloc =>
      split at hloc
      · next x hx =>
        injection hloc with hloc
        injection h with h
        simp only [Prod.mk.injEq] at h
        obtain ⟨hr, hi, _⟩ := h
        subst hloc
        exact ⟨x, by rw [← hi]; exact hx, hr.symm⟩
      · exact absurd hloc (by simp)

theorem serveGlobal_served (s : SamplingCore G) (a : Assigned G)
    (h : serveGlobal s = .ok a) : Served s a := by
  unfold serveGlobal at h
  simp only [bind, Except.bind, pure, Except.pure] at h
  split at h
  · exact absurd h (by simp)
  · next v hv =>
    injection h with h
    subst h
    intro i hi
    simp only [Option.some.injEq] at hi
    obtain ⟨loc, hloc, hres⟩ := dispense_reads s s.heuristic_pq_ v.2.2 v.1 v.2.1 hv
    exact ⟨rfl, loc, by rw [← hi]; exact hloc, hres⟩

theorem assignFromQueue_served (s : SamplingCore G) (k : Nat) (res : Response)
    (a : Assigned G) (h : assignFromQueue s k res = .ok a) : Served s a := by
  unfold assignFromQueue at h
  simp only [bind, Except.bind, pure, Except.pure] at h
  split at h
  · exact absurd h (by simp)
  · next qk _ =>
    split at h
    · split at h
      · exact absurd h (by simp)
      · next v hv =>
        injection h with h
        subst h
        intro i hi
        simp only [Option.some.injEq] at hi
        obtain ⟨loc, hloc, hres⟩ := dispense_reads s qk v.2.2 v.1 v.2.1 hv
        exact ⟨rfl, loc, by rw [← hi]; exact hloc, hres⟩
    · injection h with h
      subst h
      exact Served.of_none s _ rfl

theorem assignByRobot_served (s : SamplingCore G) (req : Request) (res : Response)
    (a : Assigned G) (h : assignByRobot s req res = .ok a) : Served s a := by
  unfold assignByRobot at h
  split at h
  · exact assignFromQueue_served s 0 res a h
  · split at h
    · exact assignFromQueue_served s 1 res a h
    · injection h with h
      subst h
      exact Served.of_none s _ rfl

theorem assignGlobal_served (E : Collaborators G) (gps : GPS) (s : SamplingCore G)
    (res : Response) (a : Assigned G) (h : assignGlobal E gps s res = .ok a) :
    Served s a := by
  unfold assignGlobal at h
  simp only [bind, Except.bind, pure, Except.pure] at h
  split at h
  · split at h
    · exact absurd h (by simp)
    · next s1 hs1 =>
      have h1 := forcedRebuild_untouched E gps s s1 hs1
      split at h
      · injection h with h
        subst h
        exact Served.of_none s _ rfl
      · exact Served.of_untouched h1 (serveGlobal_served s1 a h)
  · exact serveGlobal_served s a h

theorem AssignInterestPoint_served (E : Collaborators G) (gps : GPS) (s : SamplingCore G)
    (req : Request) (res : Response) (a : Assigned G)
    (h : AssignInterestPoint E gps s req res = .ok a) : Served s a := by
  unfold AssignInterestPoint at h
  split at h
  · exact assignGlobal_served E gps s res a h
  · exact assignGlobal_served E gps s res a h
  · simp only [bind, Except.bind, pure, Except.pure] at h
    split at h
    · split at h
      · exact absurd h (by simp)
      · next s1 hs1 =>
        have h1 := forcedRebuild_untouched E gps s s1 hs1
        split at h
        · injection h with h
          subst h
          exact Served.of_none s _ rfl
        · exact Served.of_untouched h1 (assignByRobot_served s1 req res a h)
    · exact assignByRobot_served s req res a h

/-- C14. With a non-zero `map_scale_` (and a non-zero `model_update_rate_`), when a request
dispenses grid index `i` its response holds `location_[i]` divided by `map_scale_`; a valid
measurement reported at exactly those coordinates is rescaled by `CollectSampleCallback` to
`location_[i]`, and the call adds `1` to the visit count the ledger keeps for that grid
location, which the request had left unchanged. -/
theorem C14_request_then_report_round_trip (E : Collaborators G) (gps : GPS)
    (s : SamplingCore G) (req : Request) (res : Response) (a : Assigned G) (i : Nat)
    (msg : measurement)
    (hscale : s.map_scale_ ≠ 0) (hrate : s.model_update_rate_ ≠ 0)
    (ha : AssignInterestPoint E gps s req res = .ok a) (hi : a.index = some i)
    (hv : msg.valid = true)
    (hlat : msg.latitude = a.res.latitude) (hlon : msg.longitude = a.res.longitude) :
    ∃ loc s', s.location_[i]? = some loc ∧
      a.res = { latitude := loc.1 / s.map_scale_, longitude := loc.2 / s.map_scale_ } ∧
      ledgerKey a.state msg = loc ∧
      CollectSampleCallback E a.state msg = .ok s' ∧
      a.state.sample_count_ loc = s.sample_count_ loc ∧
      s'.sample_count_ loc = s.sample_count_ loc + 1 := by
  obtain ⟨_, loc, hloc, hres⟩ := AssignInterestPoint_served E gps s req res a ha i hi
  have hu := AssignInterestPoint_untouched E gps s req res a ha
  have hkey : ledgerKey a.state msg = loc := by
    unfold ledgerKey
    rw [hlat, hlon, hres, hu.2.1]
    simp only
    rw [div_mul_cancel₀ _ hscale, div_mul_cancel₀ _ hscale]
  have hcount : a.state.sample_count_ = s.sample_count_ := hu.2.2.2.2.2.2.2.2.2.2
  have hcollect := CollectSampleCallback_valid E a.state msg hv
    (by rw [hu.2.2.1]; exact hrate)
  rw [hkey] at hcollect
  refine ⟨loc, _, hloc, hres, hkey, hcollect, by rw [hcount], ?_⟩
  simp only [Function.update_same, hcount]

/-- The hypotheses of C14 hold on the three-location grid with map scale `2`: the request
dispenses grid index `1`, located at `(1, 0)`, and answers `(0.5, 0)`; a valid report at
`(0.5, 0)` satisfies the conclusion of C14. -/
theorem C14_request_then_report_round_trip_witness :
    ∃ a : Assigned (List (Row × double)),
      core3Ready.map_scale_ ≠ 0 ∧ core3Ready.model_update_rate_ ≠ 0 ∧
      AssignInterestPoint demo ⟨none, none⟩ core3Ready ⟨"jackal"⟩ ⟨0, 0⟩ = .ok a ∧
      a.index = some 1 ∧ (sampleAt (1/2) 0).valid = true ∧
      (sampleAt (1/2) 0).latitude = a.res.latitude ∧
      (sampleAt (1/2) 0).longitude = a.res.longitude ∧
      ∃ loc s', core3Ready.location_[1]? = some loc ∧
        a.res = { latitude := loc.1 / core3Ready.map_scale_,
                  longitude := loc.2 / core3Ready.map_scale_ } ∧
        ledgerKey a.state (sampleAt (1/2) 0) = loc ∧
        CollectSampleCallback demo a.state (sampleAt (1/2) 0) = .ok s' ∧
        a.state.sample_count_ loc = core3Ready.sample_count_ loc ∧
        s'.sample_count_ loc = core3Ready.sample_count_ loc + 1 := by
  have hscale : core3Ready.map_scale_ ≠ 0 := by norm_num [core3Ready, core3]
  have hrate : core3Ready.model_update_rate_ ≠ 0 := by simp [core3Ready, core3]
  have hl : core3Ready.location_.length = 3 := rfl
  have ha := (AssignInterestPoint_global demo ⟨none, none⟩ core3Ready ⟨"jackal"⟩ ⟨0, 0⟩
    (Or.inl rfl)).trans
    (assignGlobal_cons demo ⟨none, none⟩ core3Ready ⟨0, 0⟩ (9/10, 1)
      [(1/2, 2), (1/10, 0)] rfl (by rw [hl]; norm_num))
  have hlat : (sampleAt (1/2) 0).latitude = (responseAt core3Ready 1).latitude := by
    norm_num [sampleAt, responseAt, core3Ready, core3]
  have hlon : (sampleAt (1/2) 0).longitude = (responseAt core3Ready 1).longitude := by
    norm_num [sampleAt, responseAt, core3Ready, core3]
  exact ⟨_, hscale, hrate, ha, rfl, rfl, hlat, hlon,
    C14_request_then_report_round_trip demo ⟨none, none⟩ core3Ready ⟨"jackal"⟩ ⟨0, 0⟩ _ 1
      (sampleAt (1/2) 0) hscale hrate ha rfl rfl hlat hlon⟩

/-! ## The node `CentralizedSamplingNode` -/

theorem conservativeResize_length {α : Type} (rows : Nat) (m : List α) (fresh : α) :
    (conservativeResize rows m fresh).length = rows := by
  simp only [conservativeResize, List.length_take, List.length_append, List.length_replicate]
  omega

theorem assignRow_past_end {α : Type} (m : List α) (f : α → α) :
    assignRow m m.length f = .error .eigenIndex := by
  simp [assignRow]

theorem collect_sample_callback_flag_clear (fresh : double) (n : CentralizedSamplingNode)
    (msg : measurement) (hv : msg.valid = true) (hf : n.update_flag_ = false) :
    collect_sample_callback fresh n msg = .error .moduloByZero := by
  simp [collect_sample_callback, hv, hf]

theorem collect_sample_callback_flag_set (fresh : double) (n : CentralizedSamplingNode)
    (msg : measurement) (hv : msg.valid = true) (hf : n.update_flag_ = true) :
    collect_sample_callback fresh n msg = .error .eigenIndex := by
  have hrow := assignRow_past_end
    (conservativeResize ((n.sample_size_ + 1) % sizeRange) n.sample_temperature_ fresh)
    (fun _ => msg.measurement)
  rw [conservativeResize_length] at hrow
  simp [collect_sample_callback, hv, hf, hrow, bind, Except.bind]

/-- The callback never returns on a valid measurement: it stops at the remainder when the
flag is clear and at the first write when the flag is set. -/
theorem collect_sample_callback_valid (fresh : double) (n : CentralizedSamplingNode)
    (msg : measurement) (hv : msg.valid = true) :
    collect_sample_callback fresh n msg =
      .error (if n.update_flag_ = true then .eigenIndex else .moduloByZero) := by
  cases hf : n.update_flag_ with
  | false => simpa using collect_sample_callback_flag_clear fresh n msg hv hf
  | true => simpa using collect_sample_callback_flag_set fresh n msg hv hf

/-- C15 on the code. The node is constructed with the flag clear and `model_update_rate_`
loaded as `5`; on its first valid measurement the callback takes
`sample_size_ % update_flag_`, a remainder by zero, and `model_update_rate_` plays no part:
the outcome is the same with any other rate. -/
theorem C15_node_modulus_by_flag :
    (constructed 5 0).update_flag_ = false ∧ (constructed 5 0).model_update_rate_ = 5 ∧
    collect_sample_callback 0 (constructed 5 0) (sampleAt 1 0) = .error .moduloByZero ∧
    collect_sample_callback 0 (constructed 1 0) (sampleAt 1 0) = .error .moduloByZero :=
  ⟨rfl, rfl, collect_sample_callback_flag_clear 0 (constructed 5 0) (sampleAt 1 0) rfl rfl,
    collect_sample_callback_flag_clear 0 (constructed 1 0) (sampleAt 1 0) rfl rfl⟩

/-- C16 on the code. On the constructed node the callback stops before any resize.  With
the flag set, so that the remainder is defined, the matrices are resized to `sample_size_`
rows, here one row, and the measurement is written at row index `sample_size_`, here `1`,
which is one past the last row: the write is out of range and nothing is appended. -/
theorem C16_node_write_past_last_row :
    collect_sample_callback 0 (constructed 5 0) (sampleAt 1 0) = .error .moduloByZero ∧
    (conservativeResize 1 ([] : List double) 0).length = 1 ∧
    assignRow (conservativeResize 1 ([] : List double) 0) 1 (fun _ => 7) =
      .error .eigenIndex ∧
    collect_sample_callback 0 { constructed 5 0 with update_flag_ := true } (sampleAt 1 0) =
      .error .eigenIndex :=
  ⟨collect_sample_callback_flag_clear 0 (constructed 5 0) (sampleAt 1 0) rfl rfl,
    conservativeResize_length 1 [] 0, rfl,
    collect_sample_callback_flag_set 0 { constructed 5 0 with update_flag_ := true }
      (sampleAt 1 0) rfl rfl⟩

/-! ## `Update` and the flag -/

theorem CollectSampleCallback_calls (E : Collaborators G) (s s' : SamplingCore G)
    (msg : measurement) (h : CollectSampleCallback E s msg = .ok s') :
    s'.calls_ = s.calls_ := by
  cases hv : msg.valid with
  | false =>
    rw [CollectSampleCallback_invalid E s msg hv] at h
    injection h with h
    subst h
    rfl
  | true =>
    by_cases hr : s.model_update_rate_ = 0
    · rw [CollectSampleCallback_zero_rate E s msg hv hr] at h
      exact absurd h (by simp)
    · rw [CollectSampleCallback_valid E s msg hv hr] at h
      injection h with h
      subst h
      rfl

theorem collects_calls (E : Collaborators G) (msgs : List measurement) :
    ∀ (s s' : SamplingCore G), run E (msgs.map Op.collect) s = .ok s' →
      s'.calls_ = s.calls_ := by
  induction msgs with
  | nil =>
    intro s s' h
    simp only [List.map_nil, run, pure, Except.pure] at h
    injection h with h
    subst h
    rfl
  | cons m msgs ih =>
    intro s s' h
    simp only [List.map_cons, run, step, bind, Except.bind] at h
    split at h
    · exact absurd h (by simp)
    · next s1 hs1 =>
      exact (ih s1 s' h).trans (CollectSampleCallback_calls E s s1 m hs1)

theorem Update_flag_clear (E : Collaborators G) (gps : GPS) (s : SamplingCore G)
    (hf : s.update_flag_ = false) : Update E gps s = .ok s := by
  simp [Update, hf, pure, Except.pure]

theorem Update_flag_set (E : Collaborators G) (gps : GPS) (s : SamplingCore G)
    (hf : s.update_flag_ = true) :
    Update E gps s = UpdateHeuristic E gps
      (UpdateVisualization (UpdateGPModel E { s with update_flag_ := false })) := by
  simp [Update, hf]

/-- C17. Take any measurements received with no `Update` in between, then two `Update`
calls in a row, the first of which returns.  With the flag clear the first call changes
nothing at all.  With the flag set it is the rebuild after the retrain of the state whose
flag is already cleared.  Either way the flag is clear afterwards, the second call changes
nothing, and over both calls at most one `UpdateGPModel` and one `UpdateHeuristic` ran,
exactly one of each when the flag was set, however many measurements had arrived. -/
theorem C17_update_once_per_flag (E : Collaborators G) (g1 g2 : GPS)
    (msgs : List measurement) (s0 s1 s2 : SamplingCore G)
    (hcollect : run E (msgs.map Op.collect) s0 = .ok s1)
    (hupdate : Update E g1 s1 = .ok s2) :
    (s1.update_flag_ = false → s2 = s1) ∧
    (s1.update_flag_ = true → Update E g1 s1 = UpdateHeuristic E g1
      (UpdateVisualization (UpdateGPModel E { s1 with update_flag_ := false }))) ∧
    s2.update_flag_ = false ∧
    Update E g2 s2 = .ok s2 ∧
    s2.calls_ = s0.calls_ ++ (if s1.update_flag_ = true then updateCalls else []) ∧
    s2.calls_.count Call.UpdateGPModel ≤ s0.calls_.count Call.UpdateGPModel + 1 ∧
    s2.calls_.count Call.UpdateHeuristic ≤ s0.calls_.count Call.UpdateHeuristic + 1 := by
  obtain ⟨hcalls, hflag, _⟩ := Update_effect E g1 s1 s2 hupdate
  have hc := collects_calls E msgs s0 s1 hcollect
  rw [hc] at hcalls
  refine ⟨?_, Update_flag_set E g1 s1, hflag, Update_flag_clear E g2 s2 hflag, hcalls, ?_, ?_⟩
  · intro hf
    rw [Update_flag_clear E g1 s1 hf] at hupdate
    injection hupdate with h
    exact h.symm
  · rw [hcalls]
    split <;> simp [updateCalls, List.count_cons]
  · rw [hcalls]
    split <;> simp [updateCalls, List.count_cons]

/-- The hypotheses of C17 hold for ten valid samples received at retrain rate `5` with no
`Update` in between, two multiples of the rate crossed: the first `Update` returns, and the
conclusion of C17 holds, with exactly one retrain and one rebuild recorded. -/
theorem C17_update_once_per_flag_witness :
    ∃ s1 s2 : SamplingCore (List (Row × double)),
      run demo (tenSamples.map Op.collect) (core3 .VARIANCE [1/10, 9/10, 1/2]) = .ok s1 ∧
      s1.sample_size_ = 10 ∧ s1.update_flag_ = true ∧
      Update demo ⟨none, none⟩ s1 = .ok s2 ∧
      s2.calls_ = [Call.UpdateGPModel, Call.UpdateVisualization, Call.UpdateHeuristic] ∧
      ((s1.update_flag_ = false → s2 = s1) ∧
        (s1.update_flag_ = true → Update demo ⟨none, none⟩ s1 = UpdateHeuristic demo
          ⟨none, none⟩ (UpdateVisualization (UpdateGPModel demo
            { s1 with update_flag_ := false }))) ∧
        s2.update_flag_ = false ∧
        Update demo ⟨none, none⟩ s2 = .ok s2 ∧
        s2.calls_ = (core3 .VARIANCE [1/10, 9/10, 1/2]).calls_ ++
          (if s1.update_flag_ = true then updateCalls else []) ∧
        s2.calls_.count Call.UpdateGPModel ≤
          (core3 .VARIANCE [1/10, 9/10, 1/2]).calls_.count Call.UpdateGPModel + 1 ∧
        s2.calls_.count Call.UpdateHeuristic ≤
          (core3 .VARIANCE [1/10, 9/10, 1/2]).calls_.count Call.UpdateHeuristic + 1) := by
  have hten : ∃ s1, run demo (tenSamples.map Op.collect) (core3 .VARIANCE [1/10, 9/10, 1/2]) =
      .ok s1 ∧ s1.sample_size_ = 10 ∧ s1.update_flag_ = true ∧
      s1.heuristic_mode_ = .VARIANCE := ⟨_, rfl, rfl, rfl, rfl⟩
  obtain ⟨s1, h1, hsize, hflag, hmode⟩ := hten
  obtain ⟨s2, h2⟩ := Update_global_ok demo ⟨none, none⟩ s1 (Or.inl hmode)
    demo_predicts_every_location
  have hthm := C17_update_once_per_flag demo ⟨none, none⟩ ⟨none, none⟩ tenSamples
    (core3 .VARIANCE [1/10, 9/10, 1/2]) s1 s2 h1 h2
  refine ⟨s1, s2, h1, hsize, hflag, h2, ?_, hthm⟩
  have hcalls := hthm.2.2.2.2.1
  rw [if_pos hflag] at hcalls
  exact hcalls

end sampling
